import Mathlib

/-!
Verification of the core extraction / deduplication / scraping pipeline of the
navy-project-backend repository.

The TypeScript sources are embedded shallowly:

* `src/parsing/parsing.service.ts` — field extraction, e-mail splitting,
  date parsing, SHA-256 fingerprints (`generateFingerprint`, `parseDate`,
  `splitEmailIntoItems`);
* `src/scraping/scraping.service.ts` — `scrapeWithRetry` retry state machine;
* `ScrapingProcessorQueue` (queue processor) — circuit breaker `drainQueue`;
* `src/scraping/neco-extractor.ts` — `isGarbageVendorValue`,
  `extractCageFromSow`, `validateAndFixVendorFields`;
* `src/opportunities/child-opportunities.service.ts` —
  `createChildrenFromScraping` and the child fingerprint;
* `src/fingerprinting/fingerprinting.service.ts` — the fingerprint ledger;
* `src/queues/processors/opportunity.processor.ts` — re-processing an e-mail
  for an existing record (update-data construction).

JavaScript strings are modelled as Lean `String`/`List Char`; JS `undefined` /
missing values as `Option`; machine integers as `Nat`/`Int` with explicit
`% 2 ^ 32` where the SHA-256 rounds overflow; timestamps as epoch
milliseconds (`Int`).
-/

/-! ## JS string primitives -/

/-- JS whitespace as used by `String.prototype.trim` and the regex class
`\s` (the ASCII part plus NBSP, which the extractor normalises anyway). -/
def isJsWs (c : Char) : Bool :=
  c = ' ' || c = '\t' || c = '\n' || c = '\r' || c = '\x0b' || c = '\x0c' || c = '\xa0'

/-- `trim` on a list of characters: drop JS whitespace at both ends. -/
def jsTrimL (l : List Char) : List Char :=
  ((l.dropWhile isJsWs).reverse.dropWhile isJsWs).reverse

/-- JS `String.prototype.trim`. -/
def jsTrim (s : String) : String :=
  ⟨jsTrimL s.data⟩

/-- JS `String.prototype.toLowerCase` on the ASCII range (all strings the
pipeline lowercases are ASCII). -/
def toLowerStr (s : String) : String :=
  ⟨s.data.map Char.toLower⟩

/-- ASCII digit. -/
def isDigitC (c : Char) : Bool := '0' ≤ c && c ≤ '9'

/-- ASCII letter (regex `[A-Za-z]`). -/
def isAlphaC (c : Char) : Bool := ('A' ≤ c && c ≤ 'Z') || ('a' ≤ c && c ≤ 'z')

/-- Regex word character `\w` = `[A-Za-z0-9_]`. -/
def isWordC (c : Char) : Bool := isAlphaC c || isDigitC c || c = '_'

/-- Numeric value of a digit character. -/
def digitVal (c : Char) : Nat := c.toNat - 48

/-- Natural number denoted by a list of digit characters (`parseInt` on an
all-digit string). -/
def natOfDigits (l : List Char) : Nat :=
  l.foldl (fun acc c => acc * 10 + digitVal c) 0

/-! ## SHA-256 (`crypto.createHash('sha256')`)

The pipeline derives every fingerprint with Node's SHA-256 rendered as
lowercase hex.  The algorithm is embedded over `Nat` with explicit reduction
modulo `2 ^ 32`. -/

/-- Truncate to a 32-bit word. -/
def w32 (n : Nat) : Nat := n % 4294967296

/-- 32-bit right rotation. -/
def rotr32 (x n : Nat) : Nat := w32 ((x >>> n) ||| (x <<< (32 - n)))

/-- SHA-256 Σ0. -/
def bSig0 (x : Nat) : Nat := rotr32 x 2 ^^^ rotr32 x 13 ^^^ rotr32 x 22

/-- SHA-256 Σ1. -/
def bSig1 (x : Nat) : Nat := rotr32 x 6 ^^^ rotr32 x 11 ^^^ rotr32 x 25

/-- SHA-256 σ0. -/
def sSig0 (x : Nat) : Nat := rotr32 x 7 ^^^ rotr32 x 18 ^^^ (x >>> 3)

/-- SHA-256 σ1. -/
def sSig1 (x : Nat) : Nat := rotr32 x 17 ^^^ rotr32 x 19 ^^^ (x >>> 10)

/-- SHA-256 Ch. -/
def chF (x y z : Nat) : Nat := (x &&& y) ^^^ ((x ^^^ 4294967295) &&& z)

/-- SHA-256 Maj. -/
def majF (x y z : Nat) : Nat := (x &&& y) ^^^ (x &&& z) ^^^ (y &&& z)

/-- The 64 SHA-256 round constants (FIPS 180-4 §4.2.2; written in decimal). -/
def sha256K : List Nat :=
  [1116352408, 1899447441, 3049323471, 3921009573,
   961987163, 1508970993, 2453635748, 2870763221,
   3624381080, 310598401, 607225278, 1426881987,
   1925078388, 2162078206, 2614888103, 3248222580,
   3835390401, 4022224774, 264347078, 604807628,
   770255983, 1249150122, 1555081692, 1996064986,
   2554220882, 2821834349, 2952996808, 3210313671,
   3336571891, 3584528711, 113926993, 338241895,
   666307205, 773529912, 1294757372, 1396182291,
   1695183700, 1986661051, 2177026350, 2456956037,
   2730485921, 2820302411, 3259730800, 3345764771,
   3516065817, 3600352804, 4094571909, 275423344,
   430227734, 506948616, 659060556, 883997877,
   958139571, 1322822218, 1537002063, 1747873779,
   1955562222, 2024104815, 2227730452, 2361852424,
   2428436474, 2756734187, 3204031479, 3329325298]

/-- SHA-256 initial hash value (FIPS 180-4 §5.3.3; written in decimal). -/
def sha256H0 : List Nat :=
  [1779033703, 3144134277, 1013904242, 2773480762,
   1359893119, 2600822924, 528734635, 1541459225]

/-- A 64-bit big-endian byte rendering. -/
def be64 (n : Nat) : List Nat :=
  [n / 72057594037927936 % 256, n / 281474976710656 % 256,
   n / 1099511627776 % 256, n / 4294967296 % 256,
   n / 16777216 % 256, n / 65536 % 256, n / 256 % 256, n % 256]

/-- A 32-bit big-endian byte rendering. -/
def be32 (n : Nat) : List Nat :=
  [n / 16777216 % 256, n / 65536 % 256, n / 256 % 256, n % 256]

/-- SHA-256 padding: `0x80`, zeros, then the bit length as 8 big-endian
bytes, to a multiple of 64 bytes. -/
def sha256Pad (msg : List Nat) : List Nat :=
  msg ++ [0x80] ++ List.replicate ((64 - (msg.length + 9) % 64) % 64) 0 ++
    be64 (8 * msg.length)

/-- Group bytes into 32-bit big-endian words. -/
def bytesToWords : List Nat → List Nat
  | b0 :: b1 :: b2 :: b3 :: rest =>
      (((b0 * 256 + b1) * 256 + b2) * 256 + b3) :: bytesToWords rest
  | _ => []

/-- Cut a byte list into 64-byte blocks. -/
def toBlocks (l : List Nat) : List (List Nat) :=
  if l = [] then [] else l.take 64 :: toBlocks (l.drop 64)
termination_by l.length
decreasing_by
  simp only [List.length_drop]
  rename_i h
  have : l.length ≠ 0 := fun h0 => h (List.eq_nil_of_length_eq_zero h0)
  omega

/-- Extend the 16 message words to the 64-entry schedule. -/
def sha256Schedule (w0 : Array Nat) : Array Nat :=
  (List.range 48).foldl
    (fun w j =>
      w.push (w32 (sSig1 w[j + 14]! + w[j + 9]! + sSig0 w[j + 1]! + w[j]!)))
    w0

/-- One SHA-256 round. -/
def sha256Round (st : Nat × Nat × Nat × Nat × Nat × Nat × Nat × Nat)
    (kw : Nat × Nat) : Nat × Nat × Nat × Nat × Nat × Nat × Nat × Nat :=
  let (a, b, c, d, e, f, g, h) := st
  let t1 := w32 (h + bSig1 e + chF e f g + kw.1 + kw.2)
  let t2 := w32 (bSig0 a + majF a b c)
  (w32 (t1 + t2), a, b, c, w32 (d + t1), e, f, g)

/-- Compress one 64-byte block into the running hash state. -/
def sha256Compress (h : List Nat) (block : List Nat) : List Nat :=
  match h with
  | [a0, b0, c0, d0, e0, f0, g0, h0] =>
    let ws := sha256Schedule (Array.mk (bytesToWords block))
    let (a, b, c, d, e, f, g, hh) :=
      (sha256K.zip ws.toList).foldl sha256Round (a0, b0, c0, d0, e0, f0, g0, h0)
    [w32 (a0 + a), w32 (b0 + b), w32 (c0 + c), w32 (d0 + d),
     w32 (e0 + e), w32 (f0 + f), w32 (g0 + g), w32 (h0 + hh)]
  | other => other

/-- SHA-256 of a byte list, as the 8 hash words. -/
def sha256Words (msg : List Nat) : List Nat :=
  (toBlocks (sha256Pad msg)).foldl sha256Compress sha256H0

/-- SHA-256 digest of a byte list, as 32 bytes. -/
def sha256Digest (msg : List Nat) : List Nat :=
  (sha256Words msg).flatMap be32

/-- Lowercase hex digit. -/
def hexDigitChar (n : Nat) : Char :=
  if n < 10 then Char.ofNat (48 + n) else Char.ofNat (97 + (n - 10))

/-- A byte as two lowercase hex characters. -/
def byteToHex (b : Nat) : List Char := [hexDigitChar (b / 16 % 16), hexDigitChar (b % 16)]

/-- The UTF-8 bytes of a string. -/
def strBytes (s : String) : List Nat := s.toUTF8.toList.map (fun b => b.toNat)

/-- `crypto.createHash('sha256').update(s).digest('hex')`. -/
def sha256Hex (s : String) : String :=
  ⟨(sha256Digest (strBytes s)).flatMap byteToHex⟩

/-- The sixteen lowercase hex characters. -/
def hexLowerChars : List Char :=
  "0123456789abcdef".data

theorem sha256Compress_length (h : List Nat) (b : List Nat) :
    (sha256Compress h b).length = h.length := by
  unfold sha256Compress
  repeat' rcases h with _ | ⟨_, h⟩ <;> simp

theorem sha256Words_length (msg : List Nat) : (sha256Words msg).length = 8 := by
  unfold sha256Words
  generalize toBlocks (sha256Pad msg) = bs
  have : ∀ (l : List (List Nat)) (h : List Nat),
      (l.foldl sha256Compress h).length = h.length := by
    intro l
    induction l with
    | nil => intro h; rfl
    | cons b t ih => intro h; simp [List.foldl_cons, ih, sha256Compress_length]
  simp [this]
  rfl

theorem sha256Digest_length (msg : List Nat) : (sha256Digest msg).length = 32 := by
  have h8 := sha256Words_length msg
  unfold sha256Digest
  generalize hw : sha256Words msg = w at h8
  rcases w with _ | ⟨a, _ | ⟨b, _ | ⟨c, _ | ⟨d, _ | ⟨e, _ | ⟨f, _ | ⟨g, _ | ⟨h, _ | ⟨i, t⟩⟩⟩⟩⟩⟩⟩⟩⟩ <;>
    simp_all [be32, List.flatMap]

theorem flatMap_byteToHex_length (l : List Nat) :
    (l.flatMap byteToHex).length = 2 * l.length := by
  induction l with
  | nil => rfl
  | cons b t ih => simp [List.flatMap_cons, ih, byteToHex]; omega

theorem sha256Hex_length (s : String) : (sha256Hex s).length = 64 := by
  have h32 := sha256Digest_length (strBytes s)
  show ((sha256Digest (strBytes s)).flatMap byteToHex).length = 64
  rw [flatMap_byteToHex_length, h32]

theorem hexDigitChar_mem (n : Nat) (h : n < 16) : hexDigitChar n ∈ hexLowerChars := by
  interval_cases n <;> decide

theorem sha256Hex_hex (s : String) : ∀ c ∈ (sha256Hex s).data, c ∈ hexLowerChars := by
  intro c hc
  show c ∈ hexLowerChars
  have : c ∈ (sha256Digest (strBytes s)).flatMap byteToHex := hc
  rw [List.mem_flatMap] at this
  obtain ⟨b, _, hb⟩ := this
  simp only [byteToHex, List.mem_cons, List.not_mem_nil, or_false] at hb
  rcases hb with h | h <;>
    exact h ▸ hexDigitChar_mem _ (Nat.mod_lt _ (by norm_num))

/-! ## `ParsingService.generateFingerprint`

`data` is the extracted field map (scalar values rendered with JS `String(·)`);
`none` models `null`/`undefined` (the `value != null` test). -/

/-- One fingerprint field: `value != null ? String(value).trim().toLowerCase() : ''`. -/
def normalizeFpField (v : Option String) : String :=
  match v with
  | none => ""
  | some s => toLowerStr (jsTrim s)

/-- The joined fingerprint material: normalise each named field, drop empties,
join with `|`. -/
def fingerprintValues (data : String → Option String) (fields : List String) : String :=
  String.intercalate "|" (((fields.map fun f => normalizeFpField (data f)).filter fun v => v ≠ ""))

/-- `ParsingService.generateFingerprint`: hash the joined fields, or the
trimmed fallback text when every field is empty and a fallback is given. -/
def generateFingerprint (data : String → Option String) (fields : List String)
    (fallbackText : Option String) : String :=
  let values := fingerprintValues data fields
  if values = "" then
    match fallbackText with
    | some t => if t = "" then sha256Hex values else sha256Hex (jsTrim t)
    | none => sha256Hex values
  else sha256Hex values

theorem toLowerStr_length (s : String) : (toLowerStr s).length = s.length := by
  show (s.data.map Char.toLower).length = s.data.length
  exact List.length_map _ _

theorem generateFingerprint_eq_hash (d : String → Option String) (fields : List String)
    (fb : Option String) : ∃ s, generateFingerprint d fields fb = sha256Hex s := by
  unfold generateFingerprint
  by_cases h : fingerprintValues d fields = ""
  · simp only [h, if_true]
    match fb with
    | none => exact ⟨_, rfl⟩
    | some t =>
      by_cases ht : t = ""
      · simp only [ht, if_true]; exact ⟨_, rfl⟩
      · simp only [ht, if_false]; exact ⟨_, rfl⟩
  · simp only [h, if_false]; exact ⟨_, rfl⟩

/-- C5: `generateFingerprint` is deterministic and depends only on the values
of the fields named in `fingerprintFields` (normalised per field, empties
dropped, joined with `|`) and — when the join is empty — on the fallback
text: two data maps agreeing there produce identical 64-lowercase-hex-character
SHA-256 fingerprints regardless of all other fields. -/
theorem C5_generateFingerprint_unrelated_fields
    (d1 d2 : String → Option String) (fields : List String) (fb1 fb2 : Option String)
    (h1 : ∀ f ∈ fields, d1 f = d2 f)
    (h2 : fingerprintValues d1 fields = "" → fb1 = fb2) :
    generateFingerprint d1 fields fb1 = generateFingerprint d2 fields fb2 ∧
    (generateFingerprint d1 fields fb1).length = 64 ∧
    ∀ c ∈ (generateFingerprint d1 fields fb1).data, c ∈ hexLowerChars := by
  have hv : fingerprintValues d1 fields = fingerprintValues d2 fields := by
    unfold fingerprintValues
    have : (fields.map fun f => normalizeFpField (d1 f)) =
        (fields.map fun f => normalizeFpField (d2 f)) :=
      List.map_congr_left fun f hf => by rw [h1 f hf]
    rw [this]
  have heq : generateFingerprint d1 fields fb1 = generateFingerprint d2 fields fb2 := by
    unfold generateFingerprint
    rw [← hv]
    by_cases hvv : fingerprintValues d1 fields = ""
    · rw [h2 hvv]
    · simp only [hvv, if_false]
  refine ⟨heq, ?_, ?_⟩
  · obtain ⟨s, hs⟩ := generateFingerprint_eq_hash d1 fields fb1
    rw [hs]; exact sha256Hex_length s
  · obtain ⟨s, hs⟩ := generateFingerprint_eq_hash d1 fields fb1
    rw [hs]; exact sha256Hex_hex s

/-- Concrete data map for the C5 witness: fingerprint fields plus an unrelated
field that the second map drops. -/
def fpDemoData1 : String → Option String := fun f =>
  if f = "solicitationNumber" then some " N00104-26-Q-AA01 "
  else if f = "nsn" then some "5331-00-619-2441" else some "email-only junk"

/-- Second concrete data map: agrees with `fpDemoData1` on the fingerprint
fields, differs everywhere else. -/
def fpDemoData2 : String → Option String := fun f =>
  if f = "solicitationNumber" then some " N00104-26-Q-AA01 "
  else if f = "nsn" then some "5331-00-619-2441" else none

theorem C5_generateFingerprint_unrelated_fields_witness :
    generateFingerprint fpDemoData1 ["solicitationNumber", "nsn"] (some "raw A") =
      generateFingerprint fpDemoData2 ["solicitationNumber", "nsn"] (some "raw B") ∧
    (generateFingerprint fpDemoData1 ["solicitationNumber", "nsn"] (some "raw A")).length = 64 :=
  ⟨(C5_generateFingerprint_unrelated_fields fpDemoData1 fpDemoData2
      ["solicitationNumber", "nsn"] (some "raw A") (some "raw B")
      (by decide) (by decide)).1,
   (C5_generateFingerprint_unrelated_fields fpDemoData1 fpDemoData2
      ["solicitationNumber", "nsn"] (some "raw A") (some "raw B")
      (by decide) (by decide)).2.1⟩

/-! ## `neco-extractor.ts`: garbage vendor values -/

/-- The fixed placeholder denylist `GARBAGE_VENDOR_VALUES`. -/
def garbageVendorValues : List String :=
  ["number", "and", "code/reference", "code", "ref. no.", "ref no",
   "vendor", "seller", "part", "vendor's", "seller's",
   "cage", "cage code", "n/a", "na", "none", "see sow"]

/-- `isGarbageVendorValue`: empty/`undefined`, trimmed length < 2, or the
trimmed lowercase form is on the denylist. -/
def isGarbageVendorValue (v : Option String) : Bool :=
  match v with
  | none => true
  | some s =>
    if s = "" then true
    else
      let normalized := toLowerStr (jsTrim s)
      normalized.length < 2 || garbageVendorValues.contains normalized

/-- C8: `isGarbageVendorValue` classifies a value as garbage exactly when it
is empty/undefined, its trimmed form is shorter than 2 characters, or its
trimmed lowercase form is on the fixed denylist; `"N/A"`, `"CAGE"`, `""`,
`"x"` are garbage and `"K1234"` is not. -/
theorem C8_isGarbageVendorValue_spec :
    (∀ v : Option String,
      isGarbageVendorValue v = true ↔
        (v = none ∨ v = some "" ∨
          ∃ s, v = some s ∧
            ((jsTrim s).length < 2 ∨ toLowerStr (jsTrim s) ∈ garbageVendorValues))) ∧
    isGarbageVendorValue (some "N/A") = true ∧
    isGarbageVendorValue (some "CAGE") = true ∧
    isGarbageVendorValue (some "") = true ∧
    isGarbageVendorValue (some "x") = true ∧
    isGarbageVendorValue (some "K1234") = false := by
  refine ⟨?_, by decide, by decide, by decide, by decide, by decide⟩
  intro v
  match v with
  | none => simp [isGarbageVendorValue]
  | some s =>
    by_cases hs : s = ""
    · subst hs; simp [isGarbageVendorValue]
    · simp only [isGarbageVendorValue, hs, if_false]
      constructor
      · intro h
        rw [Bool.or_eq_true, decide_eq_true_iff] at h
        refine Or.inr (Or.inr ⟨s, rfl, ?_⟩)
        rcases h with h | h
        · exact Or.inl (by rwa [toLowerStr_length] at h)
        · exact Or.inr (List.elem_iff.mp h)
      · rintro (h | h | ⟨t, ht, h⟩)
        · cases h
        · exact absurd (Option.some.inj h) hs
        · cases Option.some.inj ht
          rw [Bool.or_eq_true, decide_eq_true_iff]
          rcases h with h | h
          · exact Or.inl (by rwa [toLowerStr_length])
          · exact Or.inr (List.elem_iff.mpr h)

/-! ## `OpportunityProcessorQueue.handleOpportunityProcessing`: updating an
existing record

The mapped e-mail fields (`mapExtractedFields` output) relevant to the update;
dates and the quantity are carried as their string rendering — the
`Number(...)`/`new Date(...)` conversions the processor applies do not affect
which fields are written.  JS truthiness on these scalars is `some s` with
`s ≠ ""`. -/

structure MappedFields where
  solicitationNumber : Option String
  site : Option String
  sourceUrl : Option String
  closingDate : Option String
  deliveryDate : Option String
  partNumber : Option String
  manufacturer : Option String
  description : Option String
  nsn : Option String
  condition : Option String
  unit : Option String
  quantity : Option String
deriving Repr, DecidableEq

/-- JS truthiness of a mapped scalar. -/
def truthyS : Option String → Bool
  | some s => s ≠ ""
  | none => false

/-- The `updateData` object: `some v` = field is written with `v`,
`none` = field is not part of the update. -/
structure OpportunityUpdateData where
  solicitationNumber : Option String
  site : Option String
  sourceUrl : Option String
  closingDate : Option String
  deliveryDate : Option String
  partNumber : Option String
  manufacturer : Option String
  description : Option String
  nsn : Option String
  condition : Option String
  unit : Option String
  quantity : Option String
deriving Repr, DecidableEq

/-- The update built for an existing opportunity: `extractedData` always,
identity/date fields when truthy, scraper-enrichable fields only when the
record was not scraped (`wasScraped = scrapingStatus === 'success'`). -/
def buildUpdateData (wasScraped : Bool) (m : MappedFields) : OpportunityUpdateData :=
  { solicitationNumber := if truthyS m.solicitationNumber then m.solicitationNumber else none
    site := if truthyS m.site then m.site else none
    sourceUrl := if truthyS m.sourceUrl then m.sourceUrl else none
    closingDate := if truthyS m.closingDate then m.closingDate else none
    deliveryDate := if truthyS m.deliveryDate then m.deliveryDate else none
    partNumber := if !wasScraped && truthyS m.partNumber then m.partNumber else none
    manufacturer := if !wasScraped && truthyS m.manufacturer then m.manufacturer else none
    description := if !wasScraped && truthyS m.description then m.description else none
    nsn := if !wasScraped && truthyS m.nsn then m.nsn else none
    condition := if !wasScraped && truthyS m.condition then m.condition else none
    unit := if !wasScraped && truthyS m.unit then m.unit else none
    quantity := if !wasScraped && truthyS m.quantity then m.quantity else none }

/-- The stored opportunity row (the fields the update can touch). -/
structure OpportunityRow where
  scrapingStatus : Option String
  solicitationNumber : Option String
  site : Option String
  sourceUrl : Option String
  closingDate : Option String
  deliveryDate : Option String
  partNumber : Option String
  manufacturer : Option String
  description : Option String
  nsn : Option String
  condition : Option String
  unit : Option String
  quantity : Option String
  extractedData : List (String × Option String)
deriving Repr, DecidableEq

/-- `prisma.opportunity.update`: a field changes exactly when it is part of
the update object; `extractedData` is always rewritten. -/
def applyOpportunityUpdate (row : OpportunityRow) (u : OpportunityUpdateData)
    (newExtracted : List (String × Option String)) : OpportunityRow :=
  { row with
    extractedData := newExtracted
    solicitationNumber := u.solicitationNumber.or row.solicitationNumber
    site := u.site.or row.site
    sourceUrl := u.sourceUrl.or row.sourceUrl
    closingDate := u.closingDate.or row.closingDate
    deliveryDate := u.deliveryDate.or row.deliveryDate
    partNumber := u.partNumber.or row.partNumber
    manufacturer := u.manufacturer.or row.manufacturer
    description := u.description.or row.description
    nsn := u.nsn.or row.nsn
    condition := u.condition.or row.condition
    unit := u.unit.or row.unit
    quantity := u.quantity.or row.quantity }

/-- Re-processing an e-mail for an existing opportunity
(`handleOpportunityProcessing`, existing-record branch). -/
def reprocessExistingOpportunity (row : OpportunityRow) (m : MappedFields)
    (newExtracted : List (String × Option String)) : OpportunityRow :=
  applyOpportunityUpdate row (buildUpdateData (row.scrapingStatus = some "success") m)
    newExtracted

/-- C3: once `scrapingStatus = 'success'`, re-processing an e-mail leaves the
scraper-populated fields (quantity, unit, partNumber, manufacturer,
description, nsn, condition) unchanged, while solicitationNumber, site,
sourceUrl, closingDate and deliveryDate are still refreshed from the mapped
e-mail fields whenever those are present. -/
theorem C3_success_preserves_scraped_fields (row : OpportunityRow)
    (m : MappedFields) (ne : List (String × Option String))
    (h : row.scrapingStatus = some "success") :
    (reprocessExistingOpportunity row m ne).quantity = row.quantity ∧
    (reprocessExistingOpportunity row m ne).unit = row.unit ∧
    (reprocessExistingOpportunity row m ne).partNumber = row.partNumber ∧
    (reprocessExistingOpportunity row m ne).manufacturer = row.manufacturer ∧
    (reprocessExistingOpportunity row m ne).description = row.description ∧
    (reprocessExistingOpportunity row m ne).nsn = row.nsn ∧
    (reprocessExistingOpportunity row m ne).condition = row.condition ∧
    (truthyS m.solicitationNumber = true →
      (reprocessExistingOpportunity row m ne).solicitationNumber = m.solicitationNumber) ∧
    (truthyS m.site = true → (reprocessExistingOpportunity row m ne).site = m.site) ∧
    (truthyS m.sourceUrl = true →
      (reprocessExistingOpportunity row m ne).sourceUrl = m.sourceUrl) ∧
    (truthyS m.closingDate = true →
      (reprocessExistingOpportunity row m ne).closingDate = m.closingDate) ∧
    (truthyS m.deliveryDate = true →
      (reprocessExistingOpportunity row m ne).deliveryDate = m.deliveryDate) := by
  have hd : decide (row.scrapingStatus = some "success") = true := by
    rw [h]; rfl
  have hor : ∀ (x y : Option String), truthyS x = true →
      (if truthyS x = true then x else none).or y = x := by
    intro x y hx
    rw [if_pos hx]
    cases x with
    | none => simp [truthyS] at hx
    | some s => rfl
  unfold reprocessExistingOpportunity applyOpportunityUpdate buildUpdateData
  rw [hd]
  exact ⟨rfl, rfl, rfl, rfl, rfl, rfl, rfl,
    fun ht => hor _ _ ht, fun ht => hor _ _ ht, fun ht => hor _ _ ht,
    fun ht => hor _ _ ht, fun ht => hor _ _ ht⟩

/-- Concrete scraped row for the C3 witness. -/
def c3Row : OpportunityRow :=
  { scrapingStatus := some "success"
    solicitationNumber := some "N00104-26-Q-OLD0"
    site := none
    sourceUrl := some "https://neco.navy.mil/biz_ops/synopsis.aspx?id=1"
    closingDate := none
    deliveryDate := none
    partNumber := some "SCRAPED-PN"
    manufacturer := some "K4D70"
    description := some "VALVE, REGULATING"
    nsn := some "4820-00-123-4567"
    condition := some "A"
    unit := some "EA"
    quantity := some "12"
    extractedData := [] }

/-- Concrete mapped e-mail fields for the C3 witness: they try to overwrite
every field. -/
def c3Mapped : MappedFields :=
  { solicitationNumber := some "N00104-26-Q-NEW1"
    site := some "NECO"
    sourceUrl := some "https://neco.navy.mil/biz_ops/synopsis.aspx?id=2"
    closingDate := some "2026-03-01"
    deliveryDate := some "2026-06-01"
    partNumber := some "EMAIL-PN"
    manufacturer := some "EMAIL"
    description := some "email text"
    nsn := some "0000-00-000-0000"
    condition := some "F"
    unit := some "BX"
    quantity := some "99" }

theorem C3_success_preserves_scraped_fields_witness :
    (reprocessExistingOpportunity c3Row c3Mapped []).quantity = c3Row.quantity ∧
    (reprocessExistingOpportunity c3Row c3Mapped []).partNumber = c3Row.partNumber ∧
    (reprocessExistingOpportunity c3Row c3Mapped []).solicitationNumber =
      c3Mapped.solicitationNumber :=
  ⟨(C3_success_preserves_scraped_fields c3Row c3Mapped [] rfl).1,
   (C3_success_preserves_scraped_fields c3Row c3Mapped [] rfl).2.2.1,
   (C3_success_preserves_scraped_fields c3Row c3Mapped [] rfl).2.2.2.2.2.2.2.1 (by decide)⟩

/-! ## `ScrapingService.scrapeWithRetry`

One fetch attempt is classified exactly as the `try`/`catch` in
`scrapeWithRetry` classifies it: an HTTP 2xx response (with the error-page
signature flag already evaluated on title/body), a transport timeout
(`ECONNABORTED`/`ETIMEDOUT`), an HTTP error status, or any other error. -/

inductive FetchOutcome where
  | ok (errorPage : Bool) (isCancellation : Bool)
  | timeoutErr
  | httpErr (code : Nat)
  | otherErr
deriving Repr, DecidableEq

/-- The `ScrapingStatus` enum of `opportunity.constants.ts`. -/
inductive ScrapeStatus where
  | pending
  | success
  | failed
  | blocked
  | timeout
  | necoError
  | requiresAuth
  | disabled
  | expired
deriving Repr, DecidableEq

/-- The literal status strings stored in `scrapingStatus`.  `necoError` is
the terminal error-page status, stored as `'neco_error'` — the status the
specification names `error_page`. -/
def ScrapeStatus.code : ScrapeStatus → String
  | .pending => "pending"
  | .success => "success"
  | .failed => "failed"
  | .blocked => "blocked"
  | .timeout => "timeout"
  | .necoError => "neco_error"
  | .requiresAuth => "requires_auth"
  | .disabled => "disabled"
  | .expired => "expired"

/-- `scrapeWithRetry` as a function of the per-attempt fetch outcome: final
status plus the number of fetch attempts performed.  A 200 response whose
body/title carries the error-page signature throws `isNecoError`, which is
terminal; a transport timeout retries while `attempt < maxRetries` and is
then terminal `timeout`; 401/403 → `blocked`; 404 → `failed`; anything else
retries and then fails. -/
def scrapeWithRetry (fetch : Nat → FetchOutcome) (maxRetries : Nat) (attempt : Nat) :
    ScrapeStatus × Nat :=
  match fetch attempt with
  | .ok true _ => (.necoError, 1)
  | .ok false _ => (.success, 1)
  | .timeoutErr =>
    if _h : attempt < maxRetries then
      let r := scrapeWithRetry fetch maxRetries (attempt + 1)
      (r.1, r.2 + 1)
    else (.timeout, 1)
  | .httpErr c =>
    if c = 403 ∨ c = 401 then (.blocked, 1)
    else if c = 404 then (.failed, 1)
    else if _h : attempt < maxRetries then
      let r := scrapeWithRetry fetch maxRetries (attempt + 1)
      (r.1, r.2 + 1)
    else (.failed, 1)
  | .otherErr =>
    if _h : attempt < maxRetries then
      let r := scrapeWithRetry fetch maxRetries (attempt + 1)
      (r.1, r.2 + 1)
    else (.failed, 1)
termination_by maxRetries - attempt
decreasing_by all_goals omega

theorem scrapeWithRetry_timeout_run (fetch : Nat → FetchOutcome)
    (h : ∀ n, fetch n = .timeoutErr) :
    ∀ k maxRetries attempt, maxRetries - attempt = k →
      scrapeWithRetry fetch maxRetries attempt = (.timeout, k + 1) := by
  intro k
  induction k with
  | zero =>
    intro mr a hk
    rw [scrapeWithRetry, h a]
    simp only
    rw [dif_neg (by omega)]
  | succ n ih =>
    intro mr a hk
    rw [scrapeWithRetry, h a]
    simp only
    rw [dif_pos (by omega), ih mr (a + 1) (by omega)]

theorem scrapeWithRetry_no_retry_at_limit (fetch : Nat → FetchOutcome)
    (maxRetries attempt : Nat) (h : maxRetries ≤ attempt) :
    (scrapeWithRetry fetch maxRetries attempt).2 = 1 := by
  rw [scrapeWithRetry]
  match hf : fetch attempt with
  | .ok true _ => rfl
  | .ok false _ => rfl
  | .timeoutErr => simp only; rw [dif_neg (by omega)]
  | .httpErr c =>
    simp only
    by_cases h1 : c = 403 ∨ c = 401
    · rw [if_pos h1]
    · rw [if_neg h1]
      by_cases h2 : c = 404
      · rw [if_pos h2]
      · rw [if_neg h2, dif_neg (by omega)]
  | .otherErr => simp only; rw [dif_neg (by omega)]

/-- C4: with every attempt timing out at transport level and
`maxRetries = 3`, `scrapeWithRetry` performs exactly 3 fetch attempts and
returns terminal status `timeout`; for any fetch behaviour, no retry is
performed once the attempt counter is not strictly below `maxRetries`. -/
theorem C4_three_timeouts_terminal (fetch : Nat → FetchOutcome)
    (h : ∀ n, fetch n = .timeoutErr) :
    scrapeWithRetry fetch 3 1 = (.timeout, 3) ∧
    ScrapeStatus.timeout.code = "timeout" ∧
    ∀ (fetch' : Nat → FetchOutcome) (maxRetries attempt : Nat),
      maxRetries ≤ attempt → (scrapeWithRetry fetch' maxRetries attempt).2 = 1 :=
  ⟨scrapeWithRetry_timeout_run fetch h 2 3 1 rfl, rfl,
   fun fetch' mr a ha => scrapeWithRetry_no_retry_at_limit fetch' mr a ha⟩

theorem C4_three_timeouts_terminal_witness :
    scrapeWithRetry (fun _ => .timeoutErr) 3 1 = (.timeout, 3) :=
  (C4_three_timeouts_terminal (fun _ => .timeoutErr) (fun _ => rfl)).1

/-! ## Circuit breaker: `ScrapingProcessorQueue`

`handleScraping` calls `drainQueue` exactly when the scrape result status is
`neco_error`; `drainQueue` fetches all waiting and all delayed jobs of the
scraping queue and removes every one of them. -/

structure ScrapeJob where
  opportunityId : String
  userId : String
deriving Repr, DecidableEq

/-- The bull queue state seen by `drainQueue`: waiting plus delayed jobs. -/
structure ScrapingQueueState where
  waiting : List ScrapeJob
  delayed : List ScrapeJob
deriving Repr, DecidableEq

/-- `drainQueue`: removes all waiting and delayed jobs. -/
def drainQueue (_q : ScrapingQueueState) : ScrapingQueueState :=
  { waiting := [], delayed := [] }

/-- The queue effect of `handleScraping` after a scrape result: drain on
`neco_error`, otherwise leave the pending jobs alone. -/
def handleScrapingQueueEffect (status : ScrapeStatus) (q : ScrapingQueueState) :
    ScrapingQueueState :=
  if status = .necoError then drainQueue q else q

/-- The not-yet-started jobs of the queue. -/
def pendingJobs (q : ScrapingQueueState) : List ScrapeJob :=
  q.waiting ++ q.delayed

/-- C1: a 200 response carrying the error-page signature (body contains
`An Error Has Occured` / `An Error Has Occurred`, or an `error page` title)
makes `scrapeWithRetry` return the terminal error-page status (stored as
`'neco_error'`; the specification calls it `error_page`) after exactly one
fetch — no retry — and the queue handler then removes every pending (waiting
or delayed) fetch job, in particular every pending job of the tenant. -/
theorem C1_error_page_terminal_drains_queue (fetch : Nat → FetchOutcome)
    (maxRetries : Nat) (cancel : Bool) (q : ScrapingQueueState) (tenant : String)
    (h : fetch 1 = .ok true cancel) :
    scrapeWithRetry fetch maxRetries 1 = (.necoError, 1) ∧
    ScrapeStatus.necoError.code = "neco_error" ∧
    pendingJobs (handleScrapingQueueEffect (scrapeWithRetry fetch maxRetries 1).1 q) = [] ∧
    (pendingJobs (handleScrapingQueueEffect (scrapeWithRetry fetch maxRetries 1).1 q)).filter
      (fun j => j.userId = tenant) = [] := by
  have h1 : scrapeWithRetry fetch maxRetries 1 = (.necoError, 1) := by
    rw [scrapeWithRetry, h]
  refine ⟨h1, rfl, ?_, ?_⟩ <;> rw [h1] <;> rfl

theorem C1_error_page_terminal_drains_queue_witness :
    scrapeWithRetry (fun _ => .ok true false) 5 1 = (.necoError, 1) ∧
    pendingJobs (handleScrapingQueueEffect
      (scrapeWithRetry (fun _ => .ok true false) 5 1).1
      { waiting := [⟨"opp-1", "user-1"⟩, ⟨"opp-2", "user-2"⟩],
        delayed := [⟨"opp-3", "user-1"⟩] }) = [] :=
  ⟨(C1_error_page_terminal_drains_queue (fun _ => .ok true false) 5 false
      { waiting := [⟨"opp-1", "user-1"⟩, ⟨"opp-2", "user-2"⟩],
        delayed := [⟨"opp-3", "user-1"⟩] } "user-1" rfl).1,
   (C1_error_page_terminal_drains_queue (fun _ => .ok true false) 5 false
      { waiting := [⟨"opp-1", "user-1"⟩, ⟨"opp-2", "user-2"⟩],
        delayed := [⟨"opp-3", "user-1"⟩] } "user-1" rfl).2.2.1⟩

/-! ## `FingerprintingService`: the fingerprint ledger

A ledger row is an `OpportunityFingerprint` record; `clock` models the
database `createdAt` timestamps (each insert is stamped with the current
clock, strictly later than every existing row). -/

structure FpRow where
  userId : String
  opportunityId : Option String
  fingerprint : String
  action : String
  createdAt : Nat
deriving Repr, DecidableEq

structure LedgerState where
  rows : List FpRow
  clock : Nat
deriving Repr, DecidableEq

/-- A well-formed ledger: every stored row was stamped before the current
clock. -/
def LedgerWF (st : LedgerState) : Prop :=
  ∀ r ∈ st.rows, r.createdAt < st.clock

/-- The result of `checkFingerprint`.  `found` models the `exists` flag of
`FingerprintCheckResult` (`exists` is reserved in Lean). -/
structure FingerprintCheckResult where
  found : Bool
  action : Option String
  recordedAt : Option Nat
  opportunityId : Option String
deriving Repr, DecidableEq

/-- `findFirst … orderBy createdAt desc`: the matching row with the greatest
`createdAt` (among equal stamps the earlier row is kept; irrelevant here
because inserts always get a fresh stamp). -/
def latestRow (l : List FpRow) : Option FpRow :=
  l.foldl
    (fun acc r =>
      match acc with
      | none => some r
      | some b => if b.createdAt < r.createdAt then some r else some b)
    none

/-- `FingerprintingService.checkFingerprint`. -/
def checkFingerprint (st : LedgerState) (userId fingerprint : String) :
    FingerprintCheckResult :=
  match latestRow (st.rows.filter fun r =>
      r.userId == userId && r.fingerprint == fingerprint) with
  | none => { found := false, action := none, recordedAt := none, opportunityId := none }
  | some r =>
    { found := true
      action := some r.action
      recordedAt := some r.createdAt
      opportunityId :=
        match r.opportunityId with
        | some v => if v = "" then none else some v
        | none => none }

/-- `FingerprintingService.recordFingerprint`: inserts the row with
`action: 'deleted'` unconditionally. -/
def recordFingerprint (st : LedgerState) (userId opportunityId fingerprint : String) :
    LedgerState :=
  { rows := st.rows ++
      [{ userId := userId, opportunityId := some opportunityId,
         fingerprint := fingerprint, action := "deleted", createdAt := st.clock }]
    clock := st.clock + 1 }

theorem latestRow_append_fresh (r : FpRow) :
    ∀ (l : List FpRow) (acc : Option FpRow),
      (∀ b ∈ l, b.createdAt < r.createdAt) →
      (∀ b, acc = some b → b.createdAt < r.createdAt) →
      (l ++ [r]).foldl
        (fun acc r' =>
          match acc with
          | none => some r'
          | some b => if b.createdAt < r'.createdAt then some r' else some b)
        acc = some r := by
  intro l
  induction l with
  | nil =>
    intro acc _ hacc
    match acc with
    | none => rfl
    | some b =>
      simp only [List.nil_append, List.foldl_cons, List.foldl_nil]
      rw [if_pos (hacc b rfl)]
  | cons x xs ih =>
    intro acc hl hacc
    simp only [List.cons_append, List.foldl_cons]
    refine ih _ (fun b hb => hl b (List.mem_cons_of_mem _ hb)) ?_
    intro b hb
    match acc with
    | none =>
      simp only at hb
      cases hb
      exact hl x (List.mem_cons_self _ _)
    | some a =>
      simp only at hb
      by_cases hc : a.createdAt < x.createdAt
      · rw [if_pos hc] at hb; cases hb; exact hl x (List.mem_cons_self _ _)
      · rw [if_neg hc] at hb; cases hb; exact hacc b rfl

/-- C10: `recordFingerprint` always stores the ledger row with
`action: 'deleted'`, so a `checkFingerprint` immediately afterwards (with no
intervening `updateFingerprintAction`) reports `exists = true`, the same
record id, and `action = 'deleted'`, even though nothing was deleted. -/
theorem C10_recordFingerprint_reports_deleted (st : LedgerState)
    (userId opportunityId fingerprint : String)
    (hwf : LedgerWF st) (hid : opportunityId ≠ "") :
    checkFingerprint (recordFingerprint st userId opportunityId fingerprint)
        userId fingerprint =
      { found := true, action := some "deleted", recordedAt := some st.clock,
        opportunityId := some opportunityId } := by
  unfold checkFingerprint recordFingerprint
  have hfil :
      (st.rows ++
        [({ userId := userId, opportunityId := some opportunityId,
            fingerprint := fingerprint, action := "deleted",
            createdAt := st.clock } : FpRow)]).filter
        (fun r => r.userId == userId && r.fingerprint == fingerprint) =
      (st.rows.filter fun r => r.userId == userId && r.fingerprint == fingerprint) ++
        [({ userId := userId, opportunityId := some opportunityId,
            fingerprint := fingerprint, action := "deleted",
            createdAt := st.clock } : FpRow)] := by
    rw [List.filter_append]
    simp
  rw [hfil]
  unfold latestRow
  rw [latestRow_append_fresh _ _ none
    (fun b hb => hwf b (List.mem_of_mem_filter hb))
    (fun b hb => by cases hb)]
  simp [hid]

theorem C10_recordFingerprint_reports_deleted_witness :
    checkFingerprint
        (recordFingerprint { rows := [], clock := 0 } "user-1" "opp-1" "fp-abc")
        "user-1" "fp-abc" =
      { found := true, action := some "deleted", recordedAt := some 0,
        opportunityId := some "opp-1" } :=
  C10_recordFingerprint_reports_deleted { rows := [], clock := 0 }
    "user-1" "opp-1" "fp-abc" (by intro r hr; cases hr) (by decide)

/-! ## `ChildOpportunitiesService.createChildrenFromScraping`

The structural extractor output (`NecoExtractedData`) restricted to the
fields this service reads; the extractor sets
`totalLineItems = lineItems.length` (`neco-extractor.ts`, end of
`extract`), which enters the idempotence theorem as a hypothesis. -/

structure NecoSubLineItem where
  subLineItem : Option String
  quantity : Option Nat
  unit : Option String
  markFor : Option String
  condition : Option String
deriving Repr, DecidableEq

structure NecoLineItem where
  lineItem : Option String
  nsn : Option String
  nomenclature : Option String
  quantity : Option Nat
  unit : Option String
  vendorCode : Option String
  vendorPartNumber : Option String
  cageRefNo : Option String
  sowText : Option String
  subLineItems : List NecoSubLineItem
deriving Repr, DecidableEq

structure NecoExtractedData where
  lineItems : List NecoLineItem
  totalLineItems : Nat
  totalSubLineItems : Nat
  itemCondition : Option String
  isCancellation : Bool
  isAmendment : Bool
  buyerName : Option String
  buyerEmail : Option String
  buyerPhone : Option String
  contractType : Option String
  setAside : Option String
  fobPoint : Option String
  leadTimeDays : Option Nat
deriving Repr, DecidableEq

/-- The parent record fields `createChildrenFromScraping` selects. -/
structure ParentRec where
  id : String
  userId : String
  solicitationNumber : Option String
  childrenCount : Nat
  parentOpportunityId : Option String
deriving Repr, DecidableEq

/-- `generateChildFingerprint`: SHA-256 of
`solicitationNumber|lineItem|nsn|vendorCode|vendorPartNumber` (each falsy
component rendered as `''`). -/
def generateChildFingerprint (solicitationNumber : Option String)
    (li : NecoLineItem) : String :=
  sha256Hex (String.intercalate "|"
    [solicitationNumber.getD "", li.lineItem.getD "", li.nsn.getD "",
     li.vendorCode.getD "", li.vendorPartNumber.getD ""])

/-- The database writes `createChildrenFromScraping` performs, in order. -/
inductive ChildDbOp where
  | createChild (fingerprint : String) (li : NecoLineItem)
  | recordFp (fingerprint : String) (childId : String)
  | setChildrenCount (n : Nat)
deriving Repr, DecidableEq

/-- Is an op the parent `childrenCount` update? -/
def isSetCountOp : ChildDbOp → Bool
  | .setChildrenCount _ => true
  | _ => false

/-- The per-line-item loop: skip fingerprints already in the ledger,
otherwise create the child (`idGen` supplies the database-generated child
ids) and record its fingerprint. -/
def childLoop (userId : String) (idGen : Nat → String) (sol : Option String) :
    List NecoLineItem → Nat → LedgerState → Nat × List ChildDbOp × LedgerState
  | [], _, st => (0, [], st)
  | li :: rest, idx, st =>
    let fp := generateChildFingerprint sol li
    if (checkFingerprint st userId fp).found then
      childLoop userId idGen sol rest idx st
    else
      let childId := idGen idx
      let st' := recordFingerprint st userId childId fp
      let r := childLoop userId idGen sol rest (idx + 1) st'
      (r.1 + 1, ChildDbOp.createChild fp li :: ChildDbOp.recordFp fp childId :: r.2.1,
       r.2.2)

/-- `createChildrenFromScraping`: guards (more than one line item, parent
found, not itself a child, no children yet), then the creation loop, then —
only when something was created — one `childrenCount` update after the
loop.  Returns (created count, ordered db writes, ledger). -/
def createChildrenFromScraping (parent : Option ParentRec) (nd : NecoExtractedData)
    (idGen : Nat → String) (st : LedgerState) : Nat × List ChildDbOp × LedgerState :=
  if nd.lineItems.length ≤ 1 then (0, [], st)
  else
    match parent with
    | none => (0, [], st)
    | some p =>
      if p.parentOpportunityId.isSome then (0, [], st)
      else if 0 < p.childrenCount then (0, [], st)
      else
        ((childLoop p.userId idGen p.solicitationNumber nd.lineItems 0 st).1,
         (childLoop p.userId idGen p.solicitationNumber nd.lineItems 0 st).2.1 ++
           (if 0 < (childLoop p.userId idGen p.solicitationNumber nd.lineItems 0 st).1 then
             [ChildDbOp.setChildrenCount
               (childLoop p.userId idGen p.solicitationNumber nd.lineItems 0 st).1]
           else []),
         (childLoop p.userId idGen p.solicitationNumber nd.lineItems 0 st).2.2)

theorem childLoop_no_setCount (userId : String) (idGen : Nat → String)
    (sol : Option String) :
    ∀ (items : List NecoLineItem) (idx : Nat) (st : LedgerState),
      ∀ op ∈ (childLoop userId idGen sol items idx st).2.1, isSetCountOp op = false := by
  intro items
  induction items with
  | nil => intro idx st op hop; cases hop
  | cons li rest ih =>
    intro idx st op hop
    unfold childLoop at hop
    by_cases hf : (checkFingerprint st userId (generateChildFingerprint sol li)).found = true
    · rw [if_pos hf] at hop
      exact ih idx st op hop
    · rw [if_neg hf] at hop
      simp only [List.mem_cons] at hop
      rcases hop with rfl | rfl | hop
      · rfl
      · rfl
      · exact ih _ _ op hop

theorem createChildren_some_eq (p : ParentRec) (nd : NecoExtractedData)
    (idGen : Nat → String) (st : LedgerState) :
    createChildrenFromScraping (some p) nd idGen st =
      (if nd.lineItems.length ≤ 1 then (0, [], st)
       else if p.parentOpportunityId.isSome then (0, [], st)
       else if 0 < p.childrenCount then (0, [], st)
       else
        ((childLoop p.userId idGen p.solicitationNumber nd.lineItems 0 st).1,
         (childLoop p.userId idGen p.solicitationNumber nd.lineItems 0 st).2.1 ++
           (if 0 < (childLoop p.userId idGen p.solicitationNumber nd.lineItems 0 st).1 then
             [ChildDbOp.setChildrenCount
               (childLoop p.userId idGen p.solicitationNumber nd.lineItems 0 st).1]
           else []),
         (childLoop p.userId idGen p.solicitationNumber nd.lineItems 0 st).2.2)) := rfl

/-- C2: child-splitting is idempotent.  Children are created only when the
extracted document has `totalLineItems > 1`, the record has no
`parentOpportunityId`, and `childrenCount = 0`; invoking the routine on a
parent whose `childrenCount` is already positive creates zero children and
performs no write; and `childrenCount` is written at most once, after the
creation loop (never among the earlier writes). -/
theorem C2_createChildren_idempotent (nd : NecoExtractedData) (p : ParentRec)
    (idGen : Nat → String) (st : LedgerState)
    (hTotal : nd.totalLineItems = nd.lineItems.length) :
    (0 < (createChildrenFromScraping (some p) nd idGen st).1 →
      1 < nd.totalLineItems ∧ p.parentOpportunityId = none ∧ p.childrenCount = 0) ∧
    (0 < p.childrenCount →
      (createChildrenFromScraping (some p) nd idGen st).1 = 0 ∧
      (createChildrenFromScraping (some p) nd idGen st).2.1 = []) ∧
    ((createChildrenFromScraping (some p) nd idGen st).2.1.filter isSetCountOp).length ≤ 1 ∧
    (∀ op ∈ (createChildrenFromScraping (some p) nd idGen st).2.1.dropLast,
      isSetCountOp op = false) := by
  rw [createChildren_some_eq]
  by_cases h1 : nd.lineItems.length ≤ 1
  · rw [if_pos h1]
    exact ⟨fun h => absurd h (by omega), fun _ => ⟨rfl, rfl⟩, Nat.zero_le 1,
      fun op hop => absurd hop (List.not_mem_nil op)⟩
  · rw [if_neg h1]
    by_cases h2 : p.parentOpportunityId.isSome = true
    · rw [if_pos h2]
      exact ⟨fun h => absurd h (by omega), fun _ => ⟨rfl, rfl⟩, Nat.zero_le 1,
        fun op hop => absurd hop (List.not_mem_nil op)⟩
    · rw [if_neg h2]
      by_cases h3 : 0 < p.childrenCount
      · rw [if_pos h3]
        exact ⟨fun h => absurd h (by omega), fun _ => ⟨rfl, rfl⟩, Nat.zero_le 1,
          fun op hop => absurd hop (List.not_mem_nil op)⟩
      · rw [if_neg h3]
        have hloop := childLoop_no_setCount p.userId idGen p.solicitationNumber
          nd.lineItems 0 st
        have hfil :
            ((childLoop p.userId idGen p.solicitationNumber nd.lineItems 0 st).2.1.filter
              isSetCountOp) = [] :=
          List.filter_eq_nil.mpr (fun op hop => by rw [hloop op hop]; decide)
        refine ⟨fun _ => ⟨by omega, Option.not_isSome_iff_eq_none.mp h2, by omega⟩,
          fun hc => absurd hc h3, ?_, ?_⟩
        · rw [List.filter_append, hfil, List.nil_append]
          by_cases hc : 0 < (childLoop p.userId idGen p.solicitationNumber
              nd.lineItems 0 st).1
          · rw [if_pos hc]; simp [isSetCountOp]
          · rw [if_neg hc]; simp
        · intro op hop
          by_cases hc : 0 < (childLoop p.userId idGen p.solicitationNumber
              nd.lineItems 0 st).1
          · rw [if_pos hc, List.dropLast_concat] at hop
            exact hloop op hop
          · rw [if_neg hc, List.append_nil] at hop
            exact hloop op (List.dropLast_sublist _ |>.mem hop)

/-- Two-line-item extractor output for the C2 witness. -/
def c2Neco : NecoExtractedData :=
  { lineItems :=
      [{ lineItem := some "0001", nsn := some "4820-00-123-4567",
         nomenclature := some "VALVE", quantity := some 2, unit := some "EA",
         vendorCode := some "K4D70", vendorPartNumber := some "AB-123",
         cageRefNo := none, sowText := none, subLineItems := [] },
       { lineItem := some "0002", nsn := some "4820-00-765-4321",
         nomenclature := some "GASKET", quantity := some 4, unit := some "EA",
         vendorCode := some "K4D70", vendorPartNumber := some "CD-456",
         cageRefNo := none, sowText := none, subLineItems := [] }]
    totalLineItems := 2
    totalSubLineItems := 0
    itemCondition := some "A"
    isCancellation := false
    isAmendment := false
    buyerName := some "JANE BUYER"
    buyerEmail := none
    buyerPhone := none
    contractType := none
    setAside := none
    fobPoint := none
    leadTimeDays := some 90 }

/-- A parent that already has children, for the C2 witness. -/
def c2ParentDone : ParentRec :=
  { id := "parent-1", userId := "user-1",
    solicitationNumber := some "N00104-26-Q-AA01",
    childrenCount := 2, parentOpportunityId := none }

theorem C2_createChildren_idempotent_witness :
    (createChildrenFromScraping (some c2ParentDone) c2Neco (fun n => toString n)
        { rows := [], clock := 0 }).1 = 0 ∧
    (createChildrenFromScraping (some c2ParentDone) c2Neco (fun n => toString n)
        { rows := [], clock := 0 }).2.1 = [] :=
  (C2_createChildren_idempotent c2Neco c2ParentDone (fun n => toString n)
    { rows := [], clock := 0 } rfl).2.1 (by decide)

/-! ## `ParsingService.splitEmailIntoItems`

`body.split(new RegExp('(?=' + delimiter + ')', 'g'))` splits at every index
`i > 0` at which the delimiter regex mts (the lookahead is zero-width, so
the matched text stays at the start of the fragment and a match at index 0
produces no leading empty fragment).  The delimiter regex is abstracted as
its match predicate `mts : Nat → Bool` on the body's indices. -/

def splitAux (mts : Nat → Bool) : List Char → Nat → List Char → List (List Char)
  | [], _, cur => [cur.reverse]
  | c :: rest, i, cur =>
    if 0 < i ∧ mts i = true then cur.reverse :: splitAux mts rest (i + 1) [c]
    else splitAux mts rest (i + 1) (c :: cur)

/-- The fragments produced by the lookahead split, before filtering. -/
def rawSplitLookahead (mts : Nat → Bool) (body : List Char) : List (List Char) :=
  splitAux mts body 0 []

/-- `splitEmailIntoItems` (non-empty delimiter): split, then drop the
fragments that are empty after trimming. -/
def splitEmailIntoItems (mts : Nat → Bool) (body : List Char) : List (List Char) :=
  (rawSplitLookahead mts body).filter fun p => !(jsTrimL p).isEmpty

/-- The match predicate of the compiled delimiter regex when the configured
`itemDelimiter` is a single space `' '`: it mts exactly at the indices
holding a space. -/
def spaceDelimiterMatches (body : List Char) (i : Nat) : Bool :=
  body.get? i == some ' '

theorem splitAux_flatten (mts : Nat → Bool) :
    ∀ (cs : List Char) (i : Nat) (cur : List Char),
      (splitAux mts cs i cur).flatten = cur.reverse ++ cs := by
  intro cs
  induction cs with
  | nil => intro i cur; simp [splitAux]
  | cons c rest ih =>
    intro i cur
    unfold splitAux
    by_cases h : 0 < i ∧ mts i = true
    · rw [if_pos h]
      simp [ih]
    · rw [if_neg h]
      simp [ih]

theorem splitAux_head_cons (mts : Nat → Bool) :
    ∀ (cs : List Char) (i : Nat) (cur : List Char),
      ∃ t rest, splitAux mts cs i cur = (cur.reverse ++ t) :: rest := by
  intro cs
  induction cs with
  | nil => intro i cur; exact ⟨[], [], by simp [splitAux]⟩
  | cons c rest ih =>
    intro i cur
    unfold splitAux
    by_cases h : 0 < i ∧ mts i = true
    · rw [if_pos h]
      exact ⟨[], splitAux mts rest (i + 1) [c], by rw [List.append_nil]⟩
    · rw [if_neg h]
      obtain ⟨t, r, hr⟩ := ih (i + 1) (c :: cur)
      exact ⟨c :: t, r, by simpa using hr⟩

theorem splitAux_tail_starts (mts : Nat → Bool) :
    ∀ (cs : List Char) (i : Nat) (cur : List Char),
      (∀ k c, cs.get? k = some c → mts (i + k) = true → isJsWs c = false) →
      ∀ p ∈ (splitAux mts cs i cur).tail, ∃ c r, p = c :: r ∧ isJsWs c = false := by
  intro cs
  induction cs with
  | nil => intro i cur _ p hp; cases hp
  | cons c rest ih =>
    intro i cur hB p hp
    have hB' : ∀ k c', rest.get? k = some c' → mts ((i + 1) + k) = true →
        isJsWs c' = false := by
      intro k c' hk hm
      refine hB (k + 1) c' (by simpa using hk) ?_
      have : i + (k + 1) = (i + 1) + k := by omega
      rw [this]; exact hm
    unfold splitAux at hp
    by_cases h : 0 < i ∧ mts i = true
    · rw [if_pos h] at hp
      simp only [List.tail_cons] at hp
      obtain ⟨t, r, hr⟩ := splitAux_head_cons mts rest (i + 1) [c]
      rw [hr] at hp
      rcases List.mem_cons.mp hp with rfl | hp'
      · refine ⟨c, t, by simp, ?_⟩
        exact hB 0 c rfl (by simpa using h.2)
      · refine ih (i + 1) [c] hB' p ?_
        rw [hr]
        simpa using hp'
    · rw [if_neg h] at hp
      exact ih (i + 1) (c :: cur) hB' p hp

theorem jsTrimL_eq_nil_iff (l : List Char) :
    jsTrimL l = [] ↔ ∀ c ∈ l, isJsWs c = true := by
  constructor
  · intro h
    induction l with
    | nil => intro c hc; cases hc
    | cons a t iht =>
      intro c hc
      by_cases ha : isJsWs a = true
      · have hdw : (a :: t).dropWhile isJsWs = t.dropWhile isJsWs := by
          simp [List.dropWhile_cons, ha]
        rcases List.mem_cons.mp hc with rfl | hct
        · exact ha
        · refine iht ?_ c hct
          unfold jsTrimL at h ⊢
          rwa [hdw] at h
      · exfalso
        have hdw : (a :: t).dropWhile isJsWs = a :: t := by
          simp [List.dropWhile_cons, ha]
        unfold jsTrimL at h
        rw [hdw] at h
        have h2 : ((a :: t).reverse.dropWhile isJsWs) = [] := by
          cases h3 : ((a :: t).reverse.dropWhile isJsWs) with
          | nil => rfl
          | cons x xs => rw [h3] at h; simp at h
        have := (List.dropWhile_eq_nil_iff).mp h2 a (by simp)
        exact ha this
  · intro h
    have h1 : l.dropWhile isJsWs = [] := List.dropWhile_eq_nil_iff.mpr (fun c hc => h c hc)
    unfold jsTrimL
    rw [h1]
    rfl

theorem jsTrimL_ne_nil_of_head (c : Char) (r : List Char) (hc : isJsWs c = false) :
    jsTrimL (c :: r) ≠ [] := by
  intro h
  have := (jsTrimL_eq_nil_iff (c :: r)).mp h c (by simp)
  rw [hc] at this
  cases this

theorem jsTrimL_ws_append (w x : List Char) (hw : ∀ c ∈ w, isJsWs c = true) :
    jsTrimL (w ++ x) = jsTrimL x := by
  unfold jsTrimL
  have : (w ++ x).dropWhile isJsWs = x.dropWhile isJsWs := by
    induction w with
    | nil => rfl
    | cons a t ih =>
      simp only [List.cons_append, List.dropWhile_cons, hw a (by simp)]
      exact ih (fun c hc => hw c (List.mem_cons_of_mem _ hc))
  rw [this]

/-- C9 counterexample: with body `"a  b"` and the (legal) multiline
`itemDelimiter` `' '`, the split produces fragments `"a"`, `" "`, `" b"`,
drops the whitespace-only middle fragment, and the concatenation of the
returned fragments is `"a b"` — not the original body modulo
leading/trailing whitespace. -/
theorem C9_counterexample_space_delimiter :
    splitEmailIntoItems (spaceDelimiterMatches ("a  b".data)) ("a  b".data) =
      [['a'], [' ', 'b']] ∧
    jsTrimL (splitEmailIntoItems (spaceDelimiterMatches ("a  b".data))
        ("a  b".data)).flatten ≠ jsTrimL ("a  b".data) := by
  constructor
  · decide
  · decide

/-- C9 (amended): `splitEmailIntoItems` splits at each position matching the
delimiter with a lookahead and discards fragments that are empty after
trimming; concatenating ALL raw fragments reproduces the body exactly, every
discarded fragment is whitespace-only, and whenever the delimiter mts
only at non-whitespace characters the concatenation of the returned
fragments reproduces the body modulo leading/trailing whitespace. -/
theorem C9_splitEmail_reconstruction (mts : Nat → Bool) (body : List Char) :
    (rawSplitLookahead mts body).flatten = body ∧
    (∀ p ∈ rawSplitLookahead mts body, p ∉ splitEmailIntoItems mts body →
      ∀ c ∈ p, isJsWs c = true) ∧
    ((∀ k c, body.get? k = some c → mts k = true → isJsWs c = false) →
      jsTrimL (splitEmailIntoItems mts body).flatten = jsTrimL body) := by
  refine ⟨by simpa using splitAux_flatten mts body 0 [], ?_, ?_⟩
  · intro p hp hnp c hc
    by_cases ht : jsTrimL p = []
    · exact (jsTrimL_eq_nil_iff p).mp ht c hc
    · exfalso
      refine hnp (List.mem_filter.mpr ⟨hp, ?_⟩)
      cases h3 : jsTrimL p with
      | nil => exact absurd h3 ht
      | cons x xs => rfl
  · intro hB
    have hflat : (rawSplitLookahead mts body).flatten = body := by
      simpa using splitAux_flatten mts body 0 []
    have htail : ∀ p ∈ (rawSplitLookahead mts body).tail,
        ∃ c r, p = c :: r ∧ isJsWs c = false := by
      refine splitAux_tail_starts mts body 0 [] ?_
      intro k c hk hm
      exact hB k c hk (by simpa using hm)
    obtain ⟨t, rest, hparts⟩ := splitAux_head_cons mts body 0 []
    simp only [List.reverse_nil, List.nil_append] at hparts
    have hparts' : rawSplitLookahead mts body = t :: rest := hparts
    have hrestkeep : rest.filter (fun p => !(jsTrimL p).isEmpty) = rest := by
      refine List.filter_eq_self.mpr ?_
      intro p hp
      obtain ⟨c, r, rfl, hcw⟩ := htail p (by rw [hparts']; simpa using hp)
      cases h3 : jsTrimL (c :: r) with
      | nil => exact absurd h3 (jsTrimL_ne_nil_of_head c r hcw)
      | cons x xs => rfl
    unfold splitEmailIntoItems
    rw [hparts']
    rw [hparts'] at hflat
    simp only [List.flatten_cons] at hflat
    by_cases hkt : jsTrimL t = []
    · have htw : ∀ c ∈ t, isJsWs c = true := (jsTrimL_eq_nil_iff t).mp hkt
      have hpred : (!(jsTrimL t).isEmpty) = false := by
        rw [hkt]; rfl
      rw [List.filter_cons, hpred, if_neg Bool.false_ne_true, hrestkeep,
        ← hflat, jsTrimL_ws_append t rest.flatten htw]
    · have hpred : (!(jsTrimL t).isEmpty) = true := by
        cases h3 : jsTrimL t with
        | nil => exact absurd h3 hkt
        | cons x xs => rfl
      rw [List.filter_cons, hpred, if_pos rfl, hrestkeep, List.flatten_cons, hflat]

theorem C9_splitEmail_reconstruction_witness :
    jsTrimL (splitEmailIntoItems
        (fun i => decide (("xA yB".data).get? i = some 'x' ∨
          ("xA yB".data).get? i = some 'y')) ("xA yB".data)).flatten =
      jsTrimL ("xA yB".data) :=
  (C9_splitEmail_reconstruction
      (fun i => decide (("xA yB".data).get? i = some 'x' ∨
        ("xA yB".data).get? i = some 'y')) ("xA yB".data)).2.2
    (by
      intro k c hk hm
      rw [decide_eq_true_iff] at hm
      rcases hm with h | h <;>
        (rw [hk] at h; cases Option.some.inj h; decide))

/-! ## `NecoExtractor.extractCageFromSow` and `validateAndFixVendorFields`

The three fallback regular expressions are embedded as explicit matchers on
`List Char`, with the greedy/backtracking behaviour of the JS engine spelled
out (leftmost match; quantifiers take the longest extent compatible with the
rest of the pattern). -/

/-- Case-insensitive literal match: consume `pat` (given lowercase) from the
front of `l`, returning the rest. -/
def matchCi : List Char → List Char → Option (List Char)
  | [], l => some l
  | _, [] => none
  | p :: ps, c :: cs => if c.toLower = p then matchCi ps cs else none

/-- Index of the last `';'` of a list, if any. -/
def lastIndexOfSemi : List Char → Option Nat
  | [] => none
  | c :: rest =>
    match lastIndexOfSemi rest with
    | some j => some (j + 1)
    | none => if c = ';' then some 0 else none

/-- Pattern 1 `;(\w{4,5})\s+(\S+);` matched at the start of `l`:
`\w{4,5}` greedily tries 5 then 4 word characters, `\s+` is a non-empty
whitespace run, and `(\S+);` takes the non-space run up to its last `';'`
(the greedy `\S+` backtracks to the last semicolon inside the run). -/
def pat1At (l : List Char) : Option (List Char × List Char) :=
  match l with
  | ';' :: r =>
    let tryLen : Nat → Option (List Char × List Char) := fun n =>
      let g1 := r.take n
      if g1.length = n ∧ g1.all isWordC then
        let r2 := r.drop n
        if r2.takeWhile isJsWs = [] then none
        else
          let ns := (r2.dropWhile isJsWs).takeWhile fun c => !isJsWs c
          match lastIndexOfSemi ns with
          | some j => if 1 ≤ j then some (g1, ns.take j) else none
          | none => none
      else none
    (tryLen 5).orElse fun _ => tryLen 4
  | _ => none

/-- Leftmost match of pattern 1 over the whole text. -/
def scanPat1 : List Char → Option (List Char × List Char)
  | [] => none
  | c :: r =>
    match pat1At (c :: r) with
    | some g => some g
    | none => scanPat1 r

/-- The common tail `[:\s]*;?\s*(\w{4,5})\s+(\S+)` of pattern 2. -/
def pat2Tail (r3 : List Char) : Option (List Char × List Char) :=
  let r4 := r3.dropWhile fun c => c = ':' || isJsWs c
  let r5 := if r4.head? = some ';' then r4.tail else r4
  let r6 := r5.dropWhile isJsWs
  let w := r6.takeWhile isWordC
  if w.length = 4 ∨ w.length = 5 then
    let r7 := r6.drop w.length
    if r7.takeWhile isJsWs = [] then none
    else
      let ns := (r7.dropWhile isJsWs).takeWhile fun c => !isJsWs c
      if ns = [] then none else some (w, ns)
  else none

/-- The optional labelled block `(?:Ref\.?\s*No\.?)?` of pattern 2. -/
def refNoAfter (r2 : List Char) : Option (List Char) :=
  match matchCi "ref".data r2 with
  | none => none
  | some rr =>
    let rr1 := if rr.head? = some '.' then rr.tail else rr
    let rr2 := rr1.dropWhile isJsWs
    match matchCi "no".data rr2 with
    | none => none
    | some rr3 => some (if rr3.head? = some '.' then rr3.tail else rr3)

/-- Pattern 2 `CAGE[_\s]*(?:Ref\.?\s*No\.?)?[:\s]*;?\s*(\w{4,5})\s+(\S+)` (ci)
at the start of `l`: the optional Ref-No block is tried greedily first. -/
def pat2At (l : List Char) : Option (List Char × List Char) :=
  match matchCi "cage".data l with
  | none => none
  | some r1 =>
    let r2 := r1.dropWhile fun c => c = '_' || isJsWs c
    (match refNoAfter r2 with
     | some r3 => pat2Tail r3
     | none => none).orElse fun _ => pat2Tail r2

/-- Leftmost match of pattern 2. -/
def scanPat2 : List Char → Option (List Char × List Char)
  | [] => none
  | c :: r =>
    match pat2At (c :: r) with
    | some g => some g
    | none => scanPat2 r

/-- `CAGE[:\s]+(\w{4,5})` (ci) at the start of `l`. -/
def pat3CageAt (l : List Char) : Option (List Char) :=
  match matchCi "cage".data l with
  | none => none
  | some r1 =>
    if r1.takeWhile (fun c => c = ':' || isJsWs c) = [] then none
    else
      let r2 := r1.dropWhile fun c => c = ':' || isJsWs c
      let w := r2.takeWhile isWordC
      if 4 ≤ w.length then some (w.take 5) else none

/-- Leftmost match of the CAGE half of pattern 3. -/
def scanPat3Cage : List Char → Option (List Char)
  | [] => none
  | c :: r =>
    match pat3CageAt (c :: r) with
    | some g => some g
    | none => scanPat3Cage r

/-- The tail `[:\s]+(\S+)` of the part-number half of pattern 3. -/
def pnTail (r : List Char) : Option (List Char) :=
  if r.takeWhile (fun c => c = ':' || isJsWs c) = [] then none
  else
    let ns := ((r.dropWhile fun c => c = ':' || isJsWs c).takeWhile fun c => !isJsWs c)
    if ns = [] then none else some ns

/-- `(?:P\/N|Part\s*(?:No|Number|#))[:\s]+(\S+)` (ci) at the start of `l`,
with the alternation order of the source pattern. -/
def pat3PnAt (l : List Char) : Option (List Char) :=
  (match matchCi "p/n".data l with
   | some r => pnTail r
   | none => none).orElse fun _ =>
    match matchCi "part".data l with
    | none => none
    | some r1 =>
      let r2 := r1.dropWhile isJsWs
      (match matchCi "no".data r2 with
       | some r3 => pnTail r3
       | none => none).orElse fun _ =>
        (match matchCi "number".data r2 with
         | some r3 => pnTail r3
         | none => none).orElse fun _ =>
          match r2.head? with
          | some '#' => pnTail r2.tail
          | _ => none

/-- Leftmost match of the part-number half of pattern 3. -/
def scanPat3Pn : List Char → Option (List Char)
  | [] => none
  | c :: r =>
    match pat3PnAt (c :: r) with
    | some g => some g
    | none => scanPat3Pn r

/-- `extractCageFromSow`: the three fallback strategies in order; pattern 2's
captures are stripped of semicolons. -/
def extractCageFromSow (sowText : Option String) : Option (String × String) :=
  match sowText with
  | none => none
  | some s =>
    if s = "" then none
    else
      match scanPat1 s.data with
      | some (g1, g2) => some (⟨g1⟩, ⟨g2⟩)
      | none =>
        match scanPat2 s.data with
        | some (g1, g2) =>
            some (⟨g1.filter fun c => c ≠ ';'⟩, ⟨g2.filter fun c => c ≠ ';'⟩)
        | none =>
          match scanPat3Cage s.data, scanPat3Pn s.data with
          | some cage, some pn => some (⟨cage⟩, ⟨pn⟩)
          | _, _ => none

/-- The per-line-item body of `validateAndFixVendorFields`: on a garbage
vendor code or part number, recover the garbage field(s) from the SOW text,
or clear them when recovery fails; `cageRefNo` is filled when falsy. -/
def fixVendorItem (li : NecoLineItem) : NecoLineItem :=
  if isGarbageVendorValue li.vendorCode || isGarbageVendorValue li.vendorPartNumber then
    match extractCageFromSow li.sowText with
    | some (cage, pn) =>
      { li with
        vendorCode := if isGarbageVendorValue li.vendorCode then some cage else li.vendorCode
        vendorPartNumber :=
          if isGarbageVendorValue li.vendorPartNumber then some pn else li.vendorPartNumber
        cageRefNo :=
          if !truthyS li.cageRefNo then some (cage ++ " " ++ pn) else li.cageRefNo }
    | none =>
      { li with
        vendorCode := if isGarbageVendorValue li.vendorCode then none else li.vendorCode
        vendorPartNumber :=
          if isGarbageVendorValue li.vendorPartNumber then none else li.vendorPartNumber }
  else li

/-- `validateAndFixVendorFields` over the extracted line items. -/
def validateAndFixVendorFields (items : List NecoLineItem) : List NecoLineItem :=
  items.map fixVendorItem

/-- A line item with a garbage vendor code but a GOOD part number, whose SOW
text carries `;K4D70 AB-123;`. -/
def c7Mixed : NecoLineItem :=
  { lineItem := some "0001", nsn := none, nomenclature := none, quantity := none,
    unit := none, vendorCode := some "N/A", vendorPartNumber := some "GOOD-PN",
    cageRefNo := none, sowText := some ";K4D70 AB-123;", subLineItems := [] }

/-- C7 counterexample: on a line item whose vendor code is garbage but whose
part number is sound, with SOW text `;K4D70 AB-123;`, validation neither
recovers BOTH values from the SOW (the part number stays `GOOD-PN`, not
`AB-123`) nor clears the garbage value to undefined (the vendor code becomes
`K4D70`): only the garbage field is overwritten. -/
theorem C7_counterexample_mixed_garbage :
    isGarbageVendorValue c7Mixed.vendorCode = true ∧
    isGarbageVendorValue c7Mixed.vendorPartNumber = false ∧
    extractCageFromSow c7Mixed.sowText = some ("K4D70", "AB-123") ∧
    (fixVendorItem c7Mixed).vendorCode = some "K4D70" ∧
    (fixVendorItem c7Mixed).vendorPartNumber = some "GOOD-PN" ∧
    ¬(((fixVendorItem c7Mixed).vendorCode = some "K4D70" ∧
        (fixVendorItem c7Mixed).vendorPartNumber = some "AB-123") ∨
      (fixVendorItem c7Mixed).vendorCode = none) := by
  refine ⟨by decide, by decide, by decide, by decide, by decide, ?_⟩
  rintro (⟨_, h⟩ | h) <;> exact absurd h (by decide)

/-- A line item whose vendor code AND part number are garbage, with the same
SOW text. -/
def c7BothGarbage : NecoLineItem :=
  { lineItem := some "0001", nsn := none, nomenclature := none, quantity := none,
    unit := none, vendorCode := some "N/A", vendorPartNumber := none,
    cageRefNo := none, sowText := some ";K4D70 AB-123;", subLineItems := [] }

/-- C7 (amended): for every line item with a garbage vendor code or part
number, validation either overwrites each GARBAGE field with the
corresponding component of the pair recovered from the SOW text by the three
fallback strategies (non-garbage fields are kept), or — when recovery fails —
clears each garbage value to undefined; in particular the line item whose
vendor fields are both garbage and whose SOW text is `;K4D70 AB-123;` ends
with `vendorCode = K4D70` and `vendorPartNumber = AB-123`. -/
theorem C7_vendor_recovery_per_field (li : NecoLineItem)
    (h : isGarbageVendorValue li.vendorCode = true ∨
      isGarbageVendorValue li.vendorPartNumber = true) :
    ((∃ cage pn, extractCageFromSow li.sowText = some (cage, pn) ∧
        (fixVendorItem li).vendorCode =
          (if isGarbageVendorValue li.vendorCode then some cage else li.vendorCode) ∧
        (fixVendorItem li).vendorPartNumber =
          (if isGarbageVendorValue li.vendorPartNumber then some pn
           else li.vendorPartNumber)) ∨
      (extractCageFromSow li.sowText = none ∧
        (fixVendorItem li).vendorCode =
          (if isGarbageVendorValue li.vendorCode then none else li.vendorCode) ∧
        (fixVendorItem li).vendorPartNumber =
          (if isGarbageVendorValue li.vendorPartNumber then none
           else li.vendorPartNumber))) ∧
    validateAndFixVendorFields [li] = [fixVendorItem li] ∧
    (fixVendorItem c7BothGarbage).vendorCode = some "K4D70" ∧
    (fixVendorItem c7BothGarbage).vendorPartNumber = some "AB-123" := by
  have hb : (isGarbageVendorValue li.vendorCode ||
      isGarbageVendorValue li.vendorPartNumber) = true := by
    rcases h with h | h <;> simp [h]
  refine ⟨?_, rfl, by decide, by decide⟩
  cases hE : extractCageFromSow li.sowText with
  | some g =>
    obtain ⟨cage, pn⟩ := g
    refine Or.inl ⟨cage, pn, rfl, ?_, ?_⟩ <;>
      · unfold fixVendorItem
        rw [hb, if_pos rfl, hE]
  | none =>
    refine Or.inr ⟨rfl, ?_, ?_⟩ <;>
      · unfold fixVendorItem
        rw [hb, if_pos rfl, hE]

/-! ## `ParsingService.parseDate`

The result is an epoch-milliseconds instant (`Int`).  The branches:

1. `^(\d{1,2})-([A-Z]{3})-(\d{2})$` with the `< 50` two-digit-year pivot;
2. unanchored `([A-Za-z]+)\s+(\d{1,2}),?\s+(\d{4})`;
3. ISO `^\d{4}-\d{2}-\d{2}`: `new Date(cleaned + (has 'T' ? '' : 'T00:00:00Z'))`,
   per the ECMAScript Date Time String Format (date-time without a zone
   designator is LOCAL time);
4. locale fallback `new Date(cleaned)` (modelled by the oracle `localeParse`),
   normalised to UTC midnight of the SERVER-LOCAL calendar date.

`tzOffsetMin` is the server's `getTimezoneOffset()` (UTC − local, minutes);
branches 1–2 never consult it.  Branches 1–2 go through `toUTCDate`, whose
`new Date('<Month> <d>, <y>')` legacy parse accepts a month token that is a
(≥ 3 character) prefix of an English month name and a day 1–31, overflowing
days rolling into the next month; `Date.UTC` of the local components of a
locally-parsed midnight is timezone-independent. -/

/-- The English month names recognised by the legacy date parser. -/
def monthsEn : List String :=
  ["january", "february", "march", "april", "may", "june", "july",
   "august", "september", "october", "november", "december"]

/-- The 1-based month denoted by a token, when its lowercase form is a
prefix (of length ≥ 3) of a month name. -/
def monthIndex (token : List Char) : Option Nat :=
  if token.length < 3 then none
  else
    (monthsEn.findIdx? fun mn => (token.map Char.toLower).isPrefixOf mn.data).map
      fun i => i + 1

/-- Days since 1970-01-01 of a civil date (valid for out-of-range `d`, which
rolls over — matching the legacy parser). -/
def daysFromCivil (y : Int) (m : Nat) (d : Int) : Int :=
  let y2 := y - (if m ≤ 2 then 1 else 0)
  let era := Int.fdiv y2 400
  let yoe := y2 - era * 400
  let mp := (m + 9) % 12
  let doy := ((153 * mp + 2) / 5 : Nat) + d - 1
  let doe := yoe * 365 + yoe / 4 - yoe / 100 + doy
  era * 146097 + doe - 719468

/-- The epoch-milliseconds instant of UTC midnight of a civil date. -/
def utcMidnightMs (y : Int) (m : Nat) (d : Int) : Int :=
  86400000 * daysFromCivil y m d

/-- `toUTCDate(month, day, year)`: legacy-parse `'<month> <day>, <year>'` as
a local date and return UTC midnight of its (timezone-independent) civil
components. -/
def jsMonthDate (monToken : List Char) (day : Nat) (year : Int) : Option Int :=
  match monthIndex monToken with
  | none => none
  | some m => if 1 ≤ day ∧ day ≤ 31 then some (utcMidnightMs year m day) else none

/-- The anchored `^(\d{1,2})-([A-Z]{3})-(\d{2})$` (case-insensitive) layout:
day digits, dash, exactly three letters, dash, exactly two digits. -/
def matchDdMmmYy (l : List Char) : Option (Nat × List Char × Nat) :=
  let ds := l.takeWhile isDigitC
  if ds.length = 1 ∨ ds.length = 2 then
    match l.drop ds.length with
    | '-' :: r2 =>
      let ms := r2.takeWhile isAlphaC
      if ms.length = 3 then
        match r2.drop 3 with
        | '-' :: r4 =>
          let ys := r4.takeWhile isDigitC
          if ys.length = 2 ∧ r4.drop 2 = [] then
            some (natOfDigits ds, ms, natOfDigits ys)
          else none
        | _ => none
      else none
    | _ => none
  else none

/-- The `,?\s+(\d{4})` tail of the Month-Day-Year pattern, after the day
digits (the optional comma backtracks deterministically). -/
def mdyTailYear (r : List Char) : Option Nat :=
  let r1 := if r.head? = some ',' then r.tail else r
  if r1.takeWhile isJsWs = [] then none
  else
    let ys := (r1.dropWhile isJsWs).takeWhile isDigitC
    if 4 ≤ ys.length then some (natOfDigits (ys.take 4)) else none

/-- `([A-Za-z]+)\s+(\d{1,2}),?\s+(\d{4})` at the start of `l`: a maximal
letter run, whitespace, a greedy 1–2 digit day (2 digits tried first), the
year tail. -/
def mdyAt (l : List Char) : Option (List Char × Nat × Nat) :=
  let letters := l.takeWhile isAlphaC
  if letters = [] then none
  else
    let r1 := l.drop letters.length
    if r1.takeWhile isJsWs = [] then none
    else
      match r1.dropWhile isJsWs with
      | [] => none
      | d1 :: rest1 =>
        if isDigitC d1 then
          match rest1 with
          | d2 :: rest2 =>
            if isDigitC d2 then
              match mdyTailYear rest2 with
              | some y => some (letters, natOfDigits [d1, d2], y)
              | none =>
                match mdyTailYear rest1 with
                | some y => some (letters, natOfDigits [d1], y)
                | none => none
            else
              match mdyTailYear rest1 with
              | some y => some (letters, natOfDigits [d1], y)
              | none => none
          | [] => none
        else none

/-- Leftmost match of the Month-Day-Year pattern. -/
def findMdy : List Char → Option (List Char × Nat × Nat)
  | [] => none
  | c :: r =>
    match mdyAt (c :: r) with
    | some g => some g
    | none => findMdy r

/-- `^\d{4}-\d{2}-\d{2}` (the guard of the ISO branch). -/
def isoDatePrefixCheck (l : List Char) : Bool :=
  match l with
  | a :: b :: c :: d :: '-' :: e :: f :: '-' :: g :: h :: _ =>
    isDigitC a && isDigitC b && isDigitC c && isDigitC d &&
    isDigitC e && isDigitC f && isDigitC g && isDigitC h
  | _ => false

/-- Days of a month (for ISO validity; the ISO form does not roll over). -/
def daysInMonth (y : Int) (m : Nat) : Nat :=
  if m = 2 then (if (y % 4 = 0 ∧ y % 100 ≠ 0) ∨ y % 400 = 0 then 29 else 28)
  else if m = 4 ∨ m = 6 ∨ m = 9 ∨ m = 11 then 30
  else 31

/-- An exact, valid `YYYY-MM-DD`. -/
def parseIsoDateL (l : List Char) : Option (Int × Nat × Nat) :=
  match l with
  | [a, b, c, d, '-', e, f, '-', g, h] =>
    if isDigitC a ∧ isDigitC b ∧ isDigitC c ∧ isDigitC d ∧
       isDigitC e ∧ isDigitC f ∧ isDigitC g ∧ isDigitC h then
      let y : Int := (natOfDigits [a, b, c, d] : Nat)
      let m := natOfDigits [e, f]
      let dd := natOfDigits [g, h]
      if 1 ≤ m ∧ m ≤ 12 ∧ 1 ≤ dd ∧ dd ≤ daysInMonth y m then some (y, m, dd)
      else none
    else none
  | _ => none

/-- An ISO zone designator: absent (local time), `Z`, or `±HH:MM`
(offset in minutes, local − UTC). -/
def parseZone : List Char → Option (Option Int)
  | [] => some none
  | ['Z'] => some (some 0)
  | '+' :: z1 :: z2 :: ':' :: z3 :: z4 :: [] =>
    if isDigitC z1 ∧ isDigitC z2 ∧ isDigitC z3 ∧ isDigitC z4 ∧
        natOfDigits [z3, z4] ≤ 59 then
      some (some ((natOfDigits [z1, z2] : Int) * 60 + natOfDigits [z3, z4]))
    else none
  | '-' :: z1 :: z2 :: ':' :: z3 :: z4 :: [] =>
    if isDigitC z1 ∧ isDigitC z2 ∧ isDigitC z3 ∧ isDigitC z4 ∧
        natOfDigits [z3, z4] ≤ 59 then
      some (some (-((natOfDigits [z1, z2] : Int) * 60 + natOfDigits [z3, z4])))
    else none
  | _ => none

/-- The time-and-zone part after the 10 date characters: empty (date-only,
UTC midnight), or `THH:MM[:SS]` plus an optional zone (fractional seconds
are not used by this pipeline).  Returns (milliseconds past midnight, zone). -/
def parseIsoTimeZone : List Char → Option (Int × Option Int)
  | [] => some (0, some 0)
  | ch :: rest =>
    if ch = 'T' then
      match rest with
      | h1 :: h2 :: ':' :: m1 :: m2 :: rest2 =>
        if isDigitC h1 ∧ isDigitC h2 ∧ isDigitC m1 ∧ isDigitC m2 ∧
            natOfDigits [h1, h2] ≤ 23 ∧ natOfDigits [m1, m2] ≤ 59 then
          let hm : Int := (natOfDigits [h1, h2] : Int) * 3600000 +
            (natOfDigits [m1, m2] : Int) * 60000
          match rest2 with
          | ':' :: s1 :: s2 :: rest3 =>
            if isDigitC s1 ∧ isDigitC s2 ∧ natOfDigits [s1, s2] ≤ 59 then
              (parseZone rest3).map fun z => (hm + (natOfDigits [s1, s2] : Int) * 1000, z)
            else none
          | _ => (parseZone rest2).map fun z => (hm, z)
        else none
      | _ => none
    else none

/-- `new Date(str)` on an ISO `YYYY-MM-DD[THH:MM[:SS][zone]]` string:
without a zone designator the civil time is local (shifted by
`tzOffsetMin`), with `Z`/`±HH:MM` it is absolute. -/
def parseIsoInstantL (tzOffsetMin : Int) (l : List Char) : Option Int :=
  match parseIsoDateL (l.take 10), parseIsoTimeZone (l.drop 10) with
  | some (y, m, d), some (ms, zone) =>
    some (utcMidnightMs y m d + ms +
      (match zone with
       | none => tzOffsetMin * 60000
       | some off => -(off * 60000)))
  | _, _ => none

/-- The locale fallback `new Date(cleaned)` followed by
`Date.UTC(getFullYear(), getMonth(), getDate())`: UTC midnight of the
server-local civil date of the parsed instant. -/
def fallbackLocale (localeParse : List Char → Option Int) (tzOffsetMin : Int)
    (cleaned : List Char) : Option Int :=
  match localeParse cleaned with
  | some t => some (86400000 * Int.fdiv (t - tzOffsetMin * 60000) 86400000)
  | none => none

/-- The body of `parseDate` on the trimmed input. -/
def parseCleaned (localeParse : List Char → Option Int) (tzOffsetMin : Int)
    (cleaned : List Char) : Option Int :=
  match matchDdMmmYy cleaned with
  | some (day, mon, yy) =>
    jsMonthDate mon day
      (if yy < 50 then 2000 + (yy : Int) else 1900 + (yy : Int))
  | none =>
    match findMdy cleaned with
    | some (mon, day, year) => jsMonthDate mon day (year : Int)
    | none =>
      if isoDatePrefixCheck cleaned then
        match parseIsoInstantL tzOffsetMin
            (if cleaned.contains 'T' then cleaned
             else cleaned ++ ('T' :: "00:00:00Z".data)) with
        | some t => some t
        | none => fallbackLocale localeParse tzOffsetMin cleaned
      else fallbackLocale localeParse tzOffsetMin cleaned

/-- `ParsingService.parseDate` over the characters of the input
(`cleaned = dateStr.trim()`). -/
def parseDateL (localeParse : List Char → Option Int) (tzOffsetMin : Int)
    (dateStr : List Char) : Option Int :=
  parseCleaned localeParse tzOffsetMin (jsTrimL dateStr)

/-- `parseDate` on a string. -/
def parseDate (localeParse : List Char → Option Int) (tzOffsetMin : Int)
    (s : String) : Option Int :=
  parseDateL localeParse tzOffsetMin s.data

theorem digit_not_alpha (c : Char) (h : isDigitC c = true) : isAlphaC c = false := by
  unfold isDigitC at h
  rw [Bool.and_eq_true, decide_eq_true_eq, decide_eq_true_eq] at h
  have h1 : ¬('A' ≤ c) := not_le.mpr (lt_of_le_of_lt h.2 (by decide))
  have h2 : ¬('a' ≤ c) := not_le.mpr (lt_of_le_of_lt h.2 (by decide))
  unfold isAlphaC
  simp [h1, h2]

theorem digit_ne_T (c : Char) (h : isDigitC c = true) : c ≠ 'T' := by
  rintro rfl
  exact absurd h (by decide)

theorem jsMonthDate_midnight {mon : List Char} {day : Nat} {y t : Int}
    (h : jsMonthDate mon day y = some t) : t % 86400000 = 0 := by
  unfold jsMonthDate at h
  split at h
  · cases h
  · split at h
    · cases h
      exact Int.mul_emod_right _ _
    · cases h

theorem fallbackLocale_midnight {lp : List Char → Option Int} {tz t : Int}
    {cleaned : List Char} (h : fallbackLocale lp tz cleaned = some t) :
    t % 86400000 = 0 := by
  unfold fallbackLocale at h
  split at h
  · cases h
    exact Int.mul_emod_right _ _
  · cases h

theorem parseIsoDateL_shape {l : List Char} {x : Int × Nat × Nat}
    (hp : parseIsoDateL l = some x) :
    ∃ a b c2 d2 e f g h,
      l = [a, b, c2, d2, '-', e, f, '-', g, h] ∧
      isDigitC a = true ∧ isDigitC b = true ∧ isDigitC c2 = true ∧
      isDigitC d2 = true ∧ isDigitC e = true ∧ isDigitC f = true ∧
      isDigitC g = true ∧ isDigitC h = true := by
  unfold parseIsoDateL at hp
  split at hp
  · split at hp
    · rename_i a b c2 d2 e f g h hdg
      exact ⟨a, b, c2, d2, e, f, g, h, rfl, hdg.1, hdg.2.1, hdg.2.2.1,
        hdg.2.2.2.1, hdg.2.2.2.2.1, hdg.2.2.2.2.2.1, hdg.2.2.2.2.2.2.1,
        hdg.2.2.2.2.2.2.2⟩
    · cases hp
  · cases hp

theorem parseIsoDateL_check {l : List Char} {x : Int × Nat × Nat}
    (hp : parseIsoDateL l = some x) : isoDatePrefixCheck l = true := by
  obtain ⟨a, b, c2, d2, e, f, g, h, hl, h1, h2, h3, h4, h5, h6, h7, h8⟩ :=
    parseIsoDateL_shape hp
  subst hl
  unfold isoDatePrefixCheck
  simp [h1, h2, h3, h4, h5, h6, h7, h8]

theorem parseIsoDateL_noT {l : List Char} {x : Int × Nat × Nat}
    (hp : parseIsoDateL l = some x) : l.contains 'T' = false := by
  obtain ⟨a, b, c2, d2, e, f, g, h, hl, h1, h2, h3, h4, h5, h6, h7, h8⟩ :=
    parseIsoDateL_shape hp
  subst hl
  cases hco : List.contains [a, b, c2, d2, '-', e, f, '-', g, h] 'T' with
  | false => rfl
  | true =>
    exfalso
    have hmem : 'T' ∈ [a, b, c2, d2, '-', e, f, '-', g, h] := List.elem_iff.mp hco
    simp only [List.mem_cons, List.not_mem_nil, or_false] at hmem
    rcases hmem with rfl | rfl | rfl | rfl | hd | rfl | rfl | hd | rfl | rfl
    · exact absurd h1 (by decide)
    · exact absurd h2 (by decide)
    · exact absurd h3 (by decide)
    · exact absurd h4 (by decide)
    · exact absurd hd (by decide)
    · exact absurd h5 (by decide)
    · exact absurd h6 (by decide)
    · exact absurd hd (by decide)
    · exact absurd h7 (by decide)
    · exact absurd h8 (by decide)

theorem matchDdMmmYy_of_iso {l : List Char} {x : Int × Nat × Nat}
    (hp : parseIsoDateL l = some x) : matchDdMmmYy l = none := by
  obtain ⟨a, b, c2, d2, e, f, g, h, hl, h1, h2, h3, h4, h5, h6, h7, h8⟩ :=
    parseIsoDateL_shape hp
  subst hl
  unfold matchDdMmmYy
  have hds : ([a, b, c2, d2, '-', e, f, '-', g, h].takeWhile isDigitC) =
      [a, b, c2, d2] := by
    simp [List.takeWhile_cons, h1, h2, h3, h4, (by decide : isDigitC '-' = false)]
  rw [hds]
  norm_num

theorem findMdy_no_alpha :
    ∀ l : List Char, (∀ ch ∈ l, isAlphaC ch = false) → findMdy l = none := by
  intro l
  induction l with
  | nil => intro _; rfl
  | cons c r ih =>
    intro hA
    have hm : mdyAt (c :: r) = none := by
      unfold mdyAt
      have : (c :: r).takeWhile isAlphaC = [] := by
        simp [List.takeWhile_cons, hA c (by simp)]
      rw [this]
      simp
    unfold findMdy
    rw [hm]
    exact ih fun ch hch => hA ch (List.mem_cons_of_mem _ hch)

theorem findMdy_of_iso {l : List Char} {x : Int × Nat × Nat}
    (hp : parseIsoDateL l = some x) : findMdy l = none := by
  obtain ⟨a, b, c2, d2, e, f, g, h, hl, h1, h2, h3, h4, h5, h6, h7, h8⟩ :=
    parseIsoDateL_shape hp
  subst hl
  refine findMdy_no_alpha _ ?_
  intro ch hch
  simp only [List.mem_cons, List.not_mem_nil, or_false] at hch
  rcases hch with rfl | rfl | rfl | rfl | rfl | rfl | rfl | rfl | rfl | rfl
  · exact digit_not_alpha _ h1
  · exact digit_not_alpha _ h2
  · exact digit_not_alpha _ h3
  · exact digit_not_alpha _ h4
  · decide
  · exact digit_not_alpha _ h5
  · exact digit_not_alpha _ h6
  · decide
  · exact digit_not_alpha _ h7
  · exact digit_not_alpha _ h8

theorem parseIsoInstantL_append_exact (tz : Int) {c : List Char} {y : Int}
    {m d : Nat} (h : parseIsoDateL c = some (y, m, d)) :
    parseIsoInstantL tz (c ++ ('T' :: "00:00:00Z".data)) =
      some (utcMidnightMs y m d) := by
  have hlen : c.length = 10 := by
    obtain ⟨a, b, c2, d2, e, f, g, h8, hl, _⟩ := parseIsoDateL_shape h
    rw [hl]
    rfl
  unfold parseIsoInstantL
  rw [List.take_append_of_le_length (by omega), List.drop_append_of_le_length (by omega)]
  rw [List.take_of_length_le (by omega), show c.drop 10 = [] from by
    rw [← hlen]; exact List.drop_length c]
  rw [h]
  rw [show parseIsoTimeZone ([] ++ ('T' :: "00:00:00Z".data)) = some (0, some 0) from by decide]
  norm_num

theorem parseIsoTimeZone_not_T (ch : Char) (rest : List Char) (h : ch ≠ 'T') :
    parseIsoTimeZone (ch :: rest) = none := by
  simp only [parseIsoTimeZone, if_neg h]

theorem parseIsoInstantL_append_noT (tz : Int) (c : List Char)
    (hT : c.contains 'T' = false) :
    parseIsoInstantL tz (c ++ ('T' :: "00:00:00Z".data)) = none ∨
    ∃ y m d, parseIsoInstantL tz (c ++ ('T' :: "00:00:00Z".data)) =
      some (utcMidnightMs y m d) := by
  cases hp : parseIsoDateL ((c ++ ('T' :: "00:00:00Z".data)).take 10) with
  | none =>
    left
    unfold parseIsoInstantL
    rw [hp]
  | some x =>
    obtain ⟨y, m, d⟩ := x
    have hlen : 10 ≤ c.length := by
      by_contra hlt
      push_neg at hlt
      have hTmem : 'T' ∈ (c ++ ('T' :: "00:00:00Z".data)).take 10 := by
        rw [List.take_append_eq_append_take, List.take_of_length_le (by omega)]
        refine List.mem_append_right _ ?_
        cases hk : 10 - c.length with
        | zero => omega
        | succ n => exact List.mem_cons_self _ _
      obtain ⟨a, b, c2, d2, e, f, g, h8, hl, h1, h2, h3, h4, h5, h6, h7, hh8⟩ :=
        parseIsoDateL_shape hp
      rw [hl] at hTmem
      simp only [List.mem_cons, List.not_mem_nil, or_false] at hTmem
      rcases hTmem with rfl | rfl | rfl | rfl | hd | rfl | rfl | hd | rfl | rfl
      · exact absurd h1 (by decide)
      · exact absurd h2 (by decide)
      · exact absurd h3 (by decide)
      · exact absurd h4 (by decide)
      · exact absurd hd (by decide)
      · exact absurd h5 (by decide)
      · exact absurd h6 (by decide)
      · exact absurd hd (by decide)
      · exact absurd h7 (by decide)
      · exact absurd hh8 (by decide)
    rw [List.take_append_of_le_length hlen] at hp
    unfold parseIsoInstantL
    rw [List.take_append_of_le_length hlen, hp,
      List.drop_append_of_le_length hlen]
    cases hcd : c.drop 10 with
    | nil =>
      rw [List.nil_append,
        show parseIsoTimeZone ('T' :: "00:00:00Z".data) = some (0, some 0) from by decide]
      right
      exact ⟨y, m, d, by norm_num⟩
    | cons ch tl =>
      have hchc : ch ∈ c := List.mem_of_mem_drop (by rw [hcd]; exact List.mem_cons_self _ _)
      have hchT : ch ≠ 'T' := by
        rintro rfl
        rw [show c.contains 'T' = true from List.elem_iff.mpr hchc] at hT
        cases hT
      rw [List.cons_append, parseIsoTimeZone_not_T ch _ hchT]
      left
      rfl

/-- C6 counterexample: `parseDate` does NOT always return a UTC-midnight
instant independent of the server timezone.  An ISO date-time input
(matching the spec's accepted `YYYY-MM-DD[THH:MM:SSZ]` format) is returned
at its stated clock time, and without a zone designator it is parsed as
server-local time. -/
theorem C6_counterexample_iso_datetime :
    parseDate (fun _ => none) 0 "2026-02-17T15:30:00Z" = some 1771342200000 ∧
    ¬((1771342200000 : Int) % 86400000 = 0) ∧
    parseDate (fun _ => none) 0 "2026-02-17T15:30:00" ≠
      parseDate (fun _ => none) 60 "2026-02-17T15:30:00" := by
  exact ⟨by decide, by decide, by decide⟩

/-- C6 (amended): `parseDate` accepts the formats in the stated precedence
order; inputs matched by the three structured formats (`DD-MMM-YY`,
`Month D, YYYY`, exact ISO `YYYY-MM-DD`) parse independently of the server
timezone and of the locale fallback; every result outside the
ISO-with-time-component branch is a UTC-midnight instant; the `DD-MMM-YY`
two-digit year pivots at 50 (`yy < 50 → 20yy`, else `19yy`); and
`"10-FEB-26"` → 2026-02-10T00:00:00Z, `"Dec 05, 2025"` →
2025-12-05T00:00:00Z, `"2026-02-17"` → 2026-02-17T00:00:00Z. -/
theorem C6_parseDate_formats (lp lp' : List Char → Option Int)
    (tz tz' : Int) (s : String) :
    ((matchDdMmmYy (jsTrimL s.data)).isSome = true ∨
        (findMdy (jsTrimL s.data)).isSome = true ∨
        (parseIsoDateL (jsTrimL s.data)).isSome = true →
      parseDate lp tz s = parseDate lp' tz' s) ∧
    (∀ t, parseDate lp tz s = some t →
      ¬(isoDatePrefixCheck (jsTrimL s.data) = true ∧
          (jsTrimL s.data).contains 'T' = true) →
      t % 86400000 = 0) ∧
    (∀ day mon yy, matchDdMmmYy (jsTrimL s.data) = some (day, mon, yy) →
      parseDate lp tz s =
        jsMonthDate mon day
          (if yy < 50 then 2000 + (yy : Int) else 1900 + (yy : Int))) ∧
    parseDate lp tz "10-FEB-26" = some 1770681600000 ∧
    parseDate lp tz "Dec 05, 2025" = some 1764892800000 ∧
    parseDate lp tz "2026-02-17" = some 1771286400000 := by
  refine ⟨?_, ?_, ?_, ?_, ?_, ?_⟩
  case refine_4 =>
    show parseCleaned lp tz (jsTrimL "10-FEB-26".data) = some 1770681600000
    unfold parseCleaned
    rw [show matchDdMmmYy (jsTrimL "10-FEB-26".data) =
      some (10, ['F', 'E', 'B'], 26) from by decide]
    exact (by decide :
      jsMonthDate ['F', 'E', 'B'] 10
        (if (26 : Nat) < 50 then 2000 + (26 : Int) else 1900 + (26 : Int)) =
        some 1770681600000)
  case refine_5 =>
    show parseCleaned lp tz (jsTrimL "Dec 05, 2025".data) = some 1764892800000
    unfold parseCleaned
    rw [show matchDdMmmYy (jsTrimL "Dec 05, 2025".data) = none from by decide,
      show findMdy (jsTrimL "Dec 05, 2025".data) =
        some (['D', 'e', 'c'], 5, 2025) from by decide]
    exact (by decide :
      jsMonthDate ['D', 'e', 'c'] 5 ((2025 : Nat) : Int) = some 1764892800000)
  case refine_6 =>
    show parseCleaned lp tz (jsTrimL "2026-02-17".data) = some 1771286400000
    unfold parseCleaned
    rw [show matchDdMmmYy (jsTrimL "2026-02-17".data) = none from by decide,
      show findMdy (jsTrimL "2026-02-17".data) = none from by decide,
      if_pos (by decide : isoDatePrefixCheck (jsTrimL "2026-02-17".data) = true),
      if_neg (by decide : ¬((jsTrimL "2026-02-17".data).contains 'T' = true)),
      parseIsoInstantL_append_exact tz
        (by decide : parseIsoDateL (jsTrimL "2026-02-17".data) = some (2026, 2, 17))]
    exact (by decide :
      (some (utcMidnightMs 2026 2 (17 : Nat)) : Option Int) = some 1771286400000)
  · intro hdisj
    show parseCleaned lp tz (jsTrimL s.data) = parseCleaned lp' tz' (jsTrimL s.data)
    cases hm : matchDdMmmYy (jsTrimL s.data) with
    | some x =>
      obtain ⟨day, mon, yy⟩ := x
      unfold parseCleaned
      rw [hm]
    | none =>
      cases hf : findMdy (jsTrimL s.data) with
      | some x =>
        obtain ⟨mon, day, yr⟩ := x
        unfold parseCleaned
        rw [hm, hf]
      | none =>
        rcases hdisj with h1 | h2 | h3
        · rw [hm] at h1; cases h1
        · rw [hf] at h2; cases h2
        · obtain ⟨x, hx⟩ := Option.isSome_iff_exists.mp h3
          obtain ⟨y, m, d⟩ := x
          have hic := parseIsoDateL_check hx
          have hnt := parseIsoDateL_noT hx
          have hntP : ¬((jsTrimL s.data).contains 'T' = true) := by
            rw [hnt]; exact Bool.false_ne_true
          have hL : parseCleaned lp tz (jsTrimL s.data) =
              some (utcMidnightMs y m d) := by
            unfold parseCleaned
            rw [hm, hf, if_pos hic, if_neg hntP,
              parseIsoInstantL_append_exact tz hx]
          have hR : parseCleaned lp' tz' (jsTrimL s.data) =
              some (utcMidnightMs y m d) := by
            unfold parseCleaned
            rw [hm, hf, if_pos hic, if_neg hntP,
              parseIsoInstantL_append_exact tz' hx]
          rw [hL, hR]
  · intro t ht hni
    cases hm : matchDdMmmYy (jsTrimL s.data) with
    | some x =>
      obtain ⟨day, mon, yy⟩ := x
      have hstep : parseDate lp tz s =
          jsMonthDate mon day
            (if yy < 50 then 2000 + (yy : Int) else 1900 + (yy : Int)) := by
        show parseCleaned lp tz (jsTrimL s.data) = _
        unfold parseCleaned
        rw [hm]
      rw [hstep] at ht
      exact jsMonthDate_midnight ht
    | none =>
      cases hf : findMdy (jsTrimL s.data) with
      | some x =>
        obtain ⟨mon, day, yr⟩ := x
        have hstep : parseDate lp tz s = jsMonthDate mon day (yr : Int) := by
          show parseCleaned lp tz (jsTrimL s.data) = _
          unfold parseCleaned
          rw [hm, hf]
        rw [hstep] at ht
        exact jsMonthDate_midnight ht
      | none =>
        by_cases hic : isoDatePrefixCheck (jsTrimL s.data) = true
        · have hnt : (jsTrimL s.data).contains 'T' = false := by
            cases hco : (jsTrimL s.data).contains 'T' with
            | false => rfl
            | true => exact absurd ⟨hic, hco⟩ hni
          have hntP : ¬((jsTrimL s.data).contains 'T' = true) := by
            rw [hnt]; exact Bool.false_ne_true
          have hstep : parseDate lp tz s =
              (match parseIsoInstantL tz
                  ((jsTrimL s.data) ++ ('T' :: "00:00:00Z".data)) with
               | some t => some t
               | none => fallbackLocale lp tz (jsTrimL s.data)) := by
            show parseCleaned lp tz (jsTrimL s.data) = _
            unfold parseCleaned
            rw [hm, hf, if_pos hic, if_neg hntP]
          rcases parseIsoInstantL_append_noT tz (jsTrimL s.data) hnt with
            hno | ⟨y, m, d, hyes⟩
          · rw [hstep, hno] at ht
            exact fallbackLocale_midnight ht
          · rw [hstep, hyes] at ht
            have ht2 : some (utcMidnightMs y m d) = some t := ht
            cases ht2
            exact Int.mul_emod_right _ _
        · have hstep : parseDate lp tz s = fallbackLocale lp tz (jsTrimL s.data) := by
            show parseCleaned lp tz (jsTrimL s.data) = _
            unfold parseCleaned
            rw [hm, hf, if_neg hic]
          rw [hstep] at ht
          exact fallbackLocale_midnight ht
  · intro day mon yy h
    show parseCleaned lp tz (jsTrimL s.data) = _
    unfold parseCleaned
    rw [h]

theorem C6_parseDate_formats_witness :
    parseDate (fun _ => none) 0 "2026-02-17" =
      parseDate (fun _ => some 0) 540 "2026-02-17" ∧
    parseDate (fun _ => none) 0 "10-FEB-26" = some 1770681600000 :=
  ⟨(C6_parseDate_formats (fun _ => none) (fun _ => some 0) 0 540 "2026-02-17").1
      (Or.inr (Or.inr (by decide))),
   (C6_parseDate_formats (fun _ => none) (fun _ => none) 0 0 "x").2.2.2.1⟩

theorem C7_vendor_recovery_per_field_witness :
    (fixVendorItem c7BothGarbage).vendorCode = some "K4D70" ∧
    (fixVendorItem c7BothGarbage).vendorPartNumber = some "AB-123" :=
  ⟨(C7_vendor_recovery_per_field c7BothGarbage (Or.inl (by decide))).2.2.1,
   (C7_vendor_recovery_per_field c7BothGarbage (Or.inl (by decide))).2.2.2⟩
